import Mathlib

/-!
ZeroTier Sockets C API (`include/ZeroTierSockets.h`).

A shallow embedding of the parts of the public header that the checked
properties talk about: the ad-hoc network identifier, the error and event
enumerations, the `zts_errno` code table, the socket-call, address and ioctl
constants, the address-type discriminator, the descriptor-set macros and the
socket address records.

C enumerations become inductive types with a value function, object-like
`#define`s become constants, function-like macros become functions, and
tables of constants become lists of `(name, value)` pairs in the order of the
header.

The header declares the calls of the API without their bodies. Where a
property is about such a call, the call is modelled from the specification;
every definition of that kind says so in its doc comment.
-/

set_option maxRecDepth 100000

namespace ZeroTierSockets

/-! ## Ad-hoc network identifiers -/

/-- Reserved ZeroTier address prefix indicating a controller-less network:
the leading `ff` of the layout `ffSSSSEEEE000000` in the doc comment of
`zts_net_compute_adhoc_id`. -/
def ZTS_ADHOC_RESERVED : Nat := 0xff

/-- Modelled from the spec: the byte layout of an ad-hoc network id. The
header only declares `zts_net_compute_adhoc_id(uint16_t, uint16_t)`; its body
is not part of the header. The layout is the documented one: the reserved
8-bit prefix, the 16-bit start port, the 16-bit end port and 24 bits of zero
padding, most significant byte first. -/
def adhoc_id_bytes (start_port end_port : Nat) : List Nat :=
  [ZTS_ADHOC_RESERVED,
   start_port / 256 % 256, start_port % 256,
   end_port / 256 % 256, end_port % 256,
   0, 0, 0]

/-- Assemble a byte string, most significant byte first, into a number. -/
def assemble_big_endian (bytes : List Nat) : Nat :=
  bytes.foldl (fun acc b => acc * 256 + b) 0

/-- Modelled from the spec: `zts_net_compute_adhoc_id`, whose body is missing
from the header. The two `uint16_t` parameters are laid out by `adhoc_id_bytes`
and assembled big-endian into the `uint64_t` result. -/
def zts_net_compute_adhoc_id (start_port end_port : Nat) : Nat :=
  assemble_big_endian (adhoc_id_bytes start_port end_port) % 2 ^ 64

/-! ## Error codes -/

/-- Common error return values: `enum ZTS_Error`. -/
inductive ZTS_Error where
  | ZTS_ERR_OK
  | ZTS_ERR_SOCKET
  | ZTS_ERR_SERVICE
  | ZTS_ERR_ARG
  | ZTS_ERR_NO_RESULT
  | ZTS_ERR_GENERAL
  deriving DecidableEq, Repr, Fintype

/-- The integer value the header gives each member of `enum ZTS_Error`. -/
def ZTS_Error.toInt : ZTS_Error → Int
  | .ZTS_ERR_OK => 0
  | .ZTS_ERR_SOCKET => -1
  | .ZTS_ERR_SERVICE => -2
  | .ZTS_ERR_ARG => -3
  | .ZTS_ERR_NO_RESULT => -4
  | .ZTS_ERR_GENERAL => -5

/-! ## Event codes -/

/-- Event codes used by the callback API: `enum ZTS_Event`, members in the
order of the header. -/
inductive ZTS_Event where
  | ZTS_EVENT_NODE_UP
  | ZTS_EVENT_NODE_ONLINE
  | ZTS_EVENT_NODE_OFFLINE
  | ZTS_EVENT_NODE_DOWN
  | ZTS_EVENT_NODE_IDENTITY_COLLISION
  | ZTS_EVENT_NODE_UNRECOVERABLE_ERROR
  | ZTS_EVENT_NODE_NORMAL_TERMINATION
  | ZTS_EVENT_NETWORK_NOT_FOUND
  | ZTS_EVENT_NETWORK_CLIENT_TOO_OLD
  | ZTS_EVENT_NETWORK_REQ_CONFIG
  | ZTS_EVENT_NETWORK_OK
  | ZTS_EVENT_NETWORK_ACCESS_DENIED
  | ZTS_EVENT_NETWORK_READY_IP4
  | ZTS_EVENT_NETWORK_READY_IP6
  | ZTS_EVENT_NETWORK_READY_IP4_IP6
  | ZTS_EVENT_NETWORK_DOWN
  | ZTS_EVENT_NETWORK_UPDATE
  | ZTS_EVENT_STACK_UP
  | ZTS_EVENT_STACK_DOWN
  | ZTS_EVENT_NETIF_UP
  | ZTS_EVENT_NETIF_DOWN
  | ZTS_EVENT_NETIF_REMOVED
  | ZTS_EVENT_NETIF_LINK_UP
  | ZTS_EVENT_NETIF_LINK_DOWN
  | ZTS_EVENT_PEER_DIRECT
  | ZTS_EVENT_PEER_RELAY
  | ZTS_EVENT_PEER_UNREACHABLE
  | ZTS_EVENT_PEER_PATH_DISCOVERED
  | ZTS_EVENT_PEER_PATH_DEAD
  | ZTS_EVENT_ROUTE_ADDED
  | ZTS_EVENT_ROUTE_REMOVED
  | ZTS_EVENT_ADDR_ADDED_IP4
  | ZTS_EVENT_ADDR_REMOVED_IP4
  | ZTS_EVENT_ADDR_ADDED_IP6
  | ZTS_EVENT_ADDR_REMOVED_IP6
  | ZTS_CACHE_UPDATE_IDENTITY_SECRET
  | ZTS_CACHE_UPDATE_IDENTITY_PUBLIC
  | ZTS_CACHE_UPDATE_PLANET
  | ZTS_CACHE_UPDATE_PEER
  | ZTS_CACHE_UPDATE_NETWORK
  deriving DecidableEq, Repr, Fintype

/-- The integer value the header gives each member of `enum ZTS_Event`. -/
def ZTS_Event.toInt : ZTS_Event → Int
  | .ZTS_EVENT_NODE_UP => 200
  | .ZTS_EVENT_NODE_ONLINE => 201
  | .ZTS_EVENT_NODE_OFFLINE => 202
  | .ZTS_EVENT_NODE_DOWN => 203
  | .ZTS_EVENT_NODE_IDENTITY_COLLISION => 204
  | .ZTS_EVENT_NODE_UNRECOVERABLE_ERROR => 205
  | .ZTS_EVENT_NODE_NORMAL_TERMINATION => 206
  | .ZTS_EVENT_NETWORK_NOT_FOUND => 210
  | .ZTS_EVENT_NETWORK_CLIENT_TOO_OLD => 211
  | .ZTS_EVENT_NETWORK_REQ_CONFIG => 212
  | .ZTS_EVENT_NETWORK_OK => 213
  | .ZTS_EVENT_NETWORK_ACCESS_DENIED => 214
  | .ZTS_EVENT_NETWORK_READY_IP4 => 215
  | .ZTS_EVENT_NETWORK_READY_IP6 => 216
  | .ZTS_EVENT_NETWORK_READY_IP4_IP6 => 217
  | .ZTS_EVENT_NETWORK_DOWN => 218
  | .ZTS_EVENT_NETWORK_UPDATE => 219
  | .ZTS_EVENT_STACK_UP => 220
  | .ZTS_EVENT_STACK_DOWN => 221
  | .ZTS_EVENT_NETIF_UP => 230
  | .ZTS_EVENT_NETIF_DOWN => 231
  | .ZTS_EVENT_NETIF_REMOVED => 232
  | .ZTS_EVENT_NETIF_LINK_UP => 233
  | .ZTS_EVENT_NETIF_LINK_DOWN => 234
  | .ZTS_EVENT_PEER_DIRECT => 240
  | .ZTS_EVENT_PEER_RELAY => 241
  | .ZTS_EVENT_PEER_UNREACHABLE => 242
  | .ZTS_EVENT_PEER_PATH_DISCOVERED => 243
  | .ZTS_EVENT_PEER_PATH_DEAD => 244
  | .ZTS_EVENT_ROUTE_ADDED => 250
  | .ZTS_EVENT_ROUTE_REMOVED => 251
  | .ZTS_EVENT_ADDR_ADDED_IP4 => 260
  | .ZTS_EVENT_ADDR_REMOVED_IP4 => 261
  | .ZTS_EVENT_ADDR_ADDED_IP6 => 262
  | .ZTS_EVENT_ADDR_REMOVED_IP6 => 263
  | .ZTS_CACHE_UPDATE_IDENTITY_SECRET => 270
  | .ZTS_CACHE_UPDATE_IDENTITY_PUBLIC => 271
  | .ZTS_CACHE_UPDATE_PLANET => 272
  | .ZTS_CACHE_UPDATE_PEER => 273
  | .ZTS_CACHE_UPDATE_NETWORK => 274

/-- The families of event codes, after the name stems used in the header:
`ZTS_EVENT_NODE_*`, `ZTS_EVENT_NETWORK_*`, `ZTS_EVENT_STACK_*`,
`ZTS_EVENT_NETIF_*`, `ZTS_EVENT_PEER_*`, `ZTS_EVENT_ROUTE_*`,
`ZTS_EVENT_ADDR_*` and `ZTS_CACHE_UPDATE_*`. -/
inductive ZTS_EventFamily where
  | NODE
  | NETWORK
  | STACK
  | NETIF
  | PEER
  | ROUTE
  | ADDR
  | CACHE_UPDATE
  deriving DecidableEq, Repr

/-- The family of an event code, read off the stem of its name. -/
def ZTS_Event.family : ZTS_Event → ZTS_EventFamily
  | .ZTS_EVENT_NODE_UP => .NODE
  | .ZTS_EVENT_NODE_ONLINE => .NODE
  | .ZTS_EVENT_NODE_OFFLINE => .NODE
  | .ZTS_EVENT_NODE_DOWN => .NODE
  | .ZTS_EVENT_NODE_IDENTITY_COLLISION => .NODE
  | .ZTS_EVENT_NODE_UNRECOVERABLE_ERROR => .NODE
  | .ZTS_EVENT_NODE_NORMAL_TERMINATION => .NODE
  | .ZTS_EVENT_NETWORK_NOT_FOUND => .NETWORK
  | .ZTS_EVENT_NETWORK_CLIENT_TOO_OLD => .NETWORK
  | .ZTS_EVENT_NETWORK_REQ_CONFIG => .NETWORK
  | .ZTS_EVENT_NETWORK_OK => .NETWORK
  | .ZTS_EVENT_NETWORK_ACCESS_DENIED => .NETWORK
  | .ZTS_EVENT_NETWORK_READY_IP4 => .NETWORK
  | .ZTS_EVENT_NETWORK_READY_IP6 => .NETWORK
  | .ZTS_EVENT_NETWORK_READY_IP4_IP6 => .NETWORK
  | .ZTS_EVENT_NETWORK_DOWN => .NETWORK
  | .ZTS_EVENT_NETWORK_UPDATE => .NETWORK
  | .ZTS_EVENT_STACK_UP => .STACK
  | .ZTS_EVENT_STACK_DOWN => .STACK
  | .ZTS_EVENT_NETIF_UP => .NETIF
  | .ZTS_EVENT_NETIF_DOWN => .NETIF
  | .ZTS_EVENT_NETIF_REMOVED => .NETIF
  | .ZTS_EVENT_NETIF_LINK_UP => .NETIF
  | .ZTS_EVENT_NETIF_LINK_DOWN => .NETIF
  | .ZTS_EVENT_PEER_DIRECT => .PEER
  | .ZTS_EVENT_PEER_RELAY => .PEER
  | .ZTS_EVENT_PEER_UNREACHABLE => .PEER
  | .ZTS_EVENT_PEER_PATH_DISCOVERED => .PEER
  | .ZTS_EVENT_PEER_PATH_DEAD => .PEER
  | .ZTS_EVENT_ROUTE_ADDED => .ROUTE
  | .ZTS_EVENT_ROUTE_REMOVED => .ROUTE
  | .ZTS_EVENT_ADDR_ADDED_IP4 => .ADDR
  | .ZTS_EVENT_ADDR_REMOVED_IP4 => .ADDR
  | .ZTS_EVENT_ADDR_ADDED_IP6 => .ADDR
  | .ZTS_EVENT_ADDR_REMOVED_IP6 => .ADDR
  | .ZTS_CACHE_UPDATE_IDENTITY_SECRET => .CACHE_UPDATE
  | .ZTS_CACHE_UPDATE_IDENTITY_PUBLIC => .CACHE_UPDATE
  | .ZTS_CACHE_UPDATE_PLANET => .CACHE_UPDATE
  | .ZTS_CACHE_UPDATE_PEER => .CACHE_UPDATE
  | .ZTS_CACHE_UPDATE_NETWORK => .CACHE_UPDATE

/-! ## `zts_errno` error codes -/

def ZTS_EPERM : Nat := 1
def ZTS_ENOENT : Nat := 2
def ZTS_ESRCH : Nat := 3
def ZTS_EINTR : Nat := 4
def ZTS_EIO : Nat := 5
def ZTS_ENXIO : Nat := 6
def ZTS_E2BIG : Nat := 7
def ZTS_ENOEXEC : Nat := 8
def ZTS_EBADF : Nat := 9
def ZTS_ECHILD : Nat := 10
def ZTS_EAGAIN : Nat := 11
def ZTS_ENOMEM : Nat := 12
def ZTS_EACCES : Nat := 13
def ZTS_EFAULT : Nat := 14
def ZTS_ENOTBLK : Nat := 15
def ZTS_EBUSY : Nat := 16
def ZTS_EEXIST : Nat := 17
def ZTS_EXDEV : Nat := 18
def ZTS_ENODEV : Nat := 19
def ZTS_ENOTDIR : Nat := 20
def ZTS_EISDIR : Nat := 21
def ZTS_EINVAL : Nat := 22
def ZTS_ENFILE : Nat := 23
def ZTS_EMFILE : Nat := 24
def ZTS_ENOTTY : Nat := 25
def ZTS_ETXTBSY : Nat := 26
def ZTS_EFBIG : Nat := 27
def ZTS_ENOSPC : Nat := 28
def ZTS_ESPIPE : Nat := 29
def ZTS_EROFS : Nat := 30
def ZTS_EMLINK : Nat := 31
def ZTS_EPIPE : Nat := 32
def ZTS_EDOM : Nat := 33
def ZTS_ERANGE : Nat := 34
def ZTS_EDEADLK : Nat := 35
def ZTS_ENAMETOOLONG : Nat := 36
def ZTS_ENOLCK : Nat := 37
def ZTS_ENOSYS : Nat := 38
def ZTS_ENOTEMPTY : Nat := 39
def ZTS_ELOOP : Nat := 40
def ZTS_EWOULDBLOCK : Nat := ZTS_EAGAIN
def ZTS_ENOMSG : Nat := 42
def ZTS_EIDRM : Nat := 43
def ZTS_ECHRNG : Nat := 44
def ZTS_EL2NSYNC : Nat := 45
def ZTS_EL3HLT : Nat := 46
def ZTS_EL3RST : Nat := 47
def ZTS_ELNRNG : Nat := 48
def ZTS_EUNATCH : Nat := 49
def ZTS_ENOCSI : Nat := 50
def ZTS_EL2HLT : Nat := 51
def ZTS_EBADE : Nat := 52
def ZTS_EBADR : Nat := 53
def ZTS_EXFULL : Nat := 54
def ZTS_ENOANO : Nat := 55
def ZTS_EBADRQC : Nat := 56
def ZTS_EBADSLT : Nat := 57
def ZTS_EDEADLOCK : Nat := ZTS_EDEADLK
def ZTS_EBFONT : Nat := 59
def ZTS_ENOSTR : Nat := 60
def ZTS_ENODATA : Nat := 61
def ZTS_ETIME : Nat := 62
def ZTS_ENOSR : Nat := 63
def ZTS_ENONET : Nat := 64
def ZTS_ENOPKG : Nat := 65
def ZTS_EREMOTE : Nat := 66
def ZTS_ENOLINK : Nat := 67
def ZTS_EADV : Nat := 68
def ZTS_ESRMNT : Nat := 69
def ZTS_ECOMM : Nat := 70
def ZTS_EPROTO : Nat := 71
def ZTS_EMULTIHOP : Nat := 72
def ZTS_EDOTDOT : Nat := 73
def ZTS_EBADMSG : Nat := 74
def ZTS_EOVERFLOW : Nat := 75
def ZTS_ENOTUNIQ : Nat := 76
def ZTS_EBADFD : Nat := 77
def ZTS_EREMCHG : Nat := 78
def ZTS_ELIBACC : Nat := 79
def ZTS_ELIBBAD : Nat := 80
def ZTS_ELIBSCN : Nat := 81
def ZTS_ELIBMAX : Nat := 82
def ZTS_ELIBEXEC : Nat := 83
def ZTS_EILSEQ : Nat := 84
def ZTS_ERESTART : Nat := 85
def ZTS_ESTRPIPE : Nat := 86
def ZTS_EUSERS : Nat := 87
def ZTS_ENOTSOCK : Nat := 88
def ZTS_EDESTADDRREQ : Nat := 89
def ZTS_EMSGSIZE : Nat := 90
def ZTS_EPROTOTYPE : Nat := 91
def ZTS_ENOPROTOOPT : Nat := 92
def ZTS_EPROTONOSUPPORT : Nat := 93
def ZTS_ESOCKTNOSUPPORT : Nat := 94
def ZTS_EOPNOTSUPP : Nat := 95
def ZTS_EPFNOSUPPORT : Nat := 96
def ZTS_EAFNOSUPPORT : Nat := 97
def ZTS_EADDRINUSE : Nat := 98
def ZTS_EADDRNOTAVAIL : Nat := 99
def ZTS_ENETDOWN : Nat := 100
def ZTS_ENETUNREACH : Nat := 101
def ZTS_ENETRESET : Nat := 102
def ZTS_ECONNABORTED : Nat := 103
def ZTS_ECONNRESET : Nat := 104
def ZTS_ENOBUFS : Nat := 105
def ZTS_EISCONN : Nat := 106
def ZTS_ENOTCONN : Nat := 107
def ZTS_ESHUTDOWN : Nat := 108
def ZTS_ETOOMANYREFS : Nat := 109
def ZTS_ETIMEDOUT : Nat := 110
def ZTS_ECONNREFUSED : Nat := 111
def ZTS_EHOSTDOWN : Nat := 112
def ZTS_EHOSTUNREACH : Nat := 113
def ZTS_EALREADY : Nat := 114
def ZTS_EINPROGRESS : Nat := 115
def ZTS_ESTALE : Nat := 116
def ZTS_EUCLEAN : Nat := 117
def ZTS_ENOTNAM : Nat := 118
def ZTS_ENAVAIL : Nat := 119
def ZTS_EISNAM : Nat := 120
def ZTS_EREMOTEIO : Nat := 121
def ZTS_EDQUOT : Nat := 122
def ZTS_ENOMEDIUM : Nat := 123
def ZTS_EMEDIUMTYPE : Nat := 124

/-- Every `ZTS_E*` constant the header defines for `zts_errno`, with its
name, in the order of the header. -/
def zts_errno_codes : List (String × Nat) :=
  [("ZTS_EPERM", ZTS_EPERM), ("ZTS_ENOENT", ZTS_ENOENT),
   ("ZTS_ESRCH", ZTS_ESRCH), ("ZTS_EINTR", ZTS_EINTR),
   ("ZTS_EIO", ZTS_EIO), ("ZTS_ENXIO", ZTS_ENXIO),
   ("ZTS_E2BIG", ZTS_E2BIG), ("ZTS_ENOEXEC", ZTS_ENOEXEC),
   ("ZTS_EBADF", ZTS_EBADF), ("ZTS_ECHILD", ZTS_ECHILD),
   ("ZTS_EAGAIN", ZTS_EAGAIN), ("ZTS_ENOMEM", ZTS_ENOMEM),
   ("ZTS_EACCES", ZTS_EACCES), ("ZTS_EFAULT", ZTS_EFAULT),
   ("ZTS_ENOTBLK", ZTS_ENOTBLK), ("ZTS_EBUSY", ZTS_EBUSY),
   ("ZTS_EEXIST", ZTS_EEXIST), ("ZTS_EXDEV", ZTS_EXDEV),
   ("ZTS_ENODEV", ZTS_ENODEV), ("ZTS_ENOTDIR", ZTS_ENOTDIR),
   ("ZTS_EISDIR", ZTS_EISDIR), ("ZTS_EINVAL", ZTS_EINVAL),
   ("ZTS_ENFILE", ZTS_ENFILE), ("ZTS_EMFILE", ZTS_EMFILE),
   ("ZTS_ENOTTY", ZTS_ENOTTY), ("ZTS_ETXTBSY", ZTS_ETXTBSY),
   ("ZTS_EFBIG", ZTS_EFBIG), ("ZTS_ENOSPC", ZTS_ENOSPC),
   ("ZTS_ESPIPE", ZTS_ESPIPE), ("ZTS_EROFS", ZTS_EROFS),
   ("ZTS_EMLINK", ZTS_EMLINK), ("ZTS_EPIPE", ZTS_EPIPE),
   ("ZTS_EDOM", ZTS_EDOM), ("ZTS_ERANGE", ZTS_ERANGE),
   ("ZTS_EDEADLK", ZTS_EDEADLK), ("ZTS_ENAMETOOLONG", ZTS_ENAMETOOLONG),
   ("ZTS_ENOLCK", ZTS_ENOLCK), ("ZTS_ENOSYS", ZTS_ENOSYS),
   ("ZTS_ENOTEMPTY", ZTS_ENOTEMPTY), ("ZTS_ELOOP", ZTS_ELOOP),
   ("ZTS_EWOULDBLOCK", ZTS_EWOULDBLOCK), ("ZTS_ENOMSG", ZTS_ENOMSG),
   ("ZTS_EIDRM", ZTS_EIDRM), ("ZTS_ECHRNG", ZTS_ECHRNG),
   ("ZTS_EL2NSYNC", ZTS_EL2NSYNC), ("ZTS_EL3HLT", ZTS_EL3HLT),
   ("ZTS_EL3RST", ZTS_EL3RST), ("ZTS_ELNRNG", ZTS_ELNRNG),
   ("ZTS_EUNATCH", ZTS_EUNATCH), ("ZTS_ENOCSI", ZTS_ENOCSI),
   ("ZTS_EL2HLT", ZTS_EL2HLT), ("ZTS_EBADE", ZTS_EBADE),
   ("ZTS_EBADR", ZTS_EBADR), ("ZTS_EXFULL", ZTS_EXFULL),
   ("ZTS_ENOANO", ZTS_ENOANO), ("ZTS_EBADRQC", ZTS_EBADRQC),
   ("ZTS_EBADSLT", ZTS_EBADSLT), ("ZTS_EDEADLOCK", ZTS_EDEADLOCK),
   ("ZTS_EBFONT", ZTS_EBFONT), ("ZTS_ENOSTR", ZTS_ENOSTR),
   ("ZTS_ENODATA", ZTS_ENODATA), ("ZTS_ETIME", ZTS_ETIME),
   ("ZTS_ENOSR", ZTS_ENOSR), ("ZTS_ENONET", ZTS_ENONET),
   ("ZTS_ENOPKG", ZTS_ENOPKG), ("ZTS_EREMOTE", ZTS_EREMOTE),
   ("ZTS_ENOLINK", ZTS_ENOLINK), ("ZTS_EADV", ZTS_EADV),
   ("ZTS_ESRMNT", ZTS_ESRMNT), ("ZTS_ECOMM", ZTS_ECOMM),
   ("ZTS_EPROTO", ZTS_EPROTO), ("ZTS_EMULTIHOP", ZTS_EMULTIHOP),
   ("ZTS_EDOTDOT", ZTS_EDOTDOT), ("ZTS_EBADMSG", ZTS_EBADMSG),
   ("ZTS_EOVERFLOW", ZTS_EOVERFLOW), ("ZTS_ENOTUNIQ", ZTS_ENOTUNIQ),
   ("ZTS_EBADFD", ZTS_EBADFD), ("ZTS_EREMCHG", ZTS_EREMCHG),
   ("ZTS_ELIBACC", ZTS_ELIBACC), ("ZTS_ELIBBAD", ZTS_ELIBBAD),
   ("ZTS_ELIBSCN", ZTS_ELIBSCN), ("ZTS_ELIBMAX", ZTS_ELIBMAX),
   ("ZTS_ELIBEXEC", ZTS_ELIBEXEC), ("ZTS_EILSEQ", ZTS_EILSEQ),
   ("ZTS_ERESTART", ZTS_ERESTART), ("ZTS_ESTRPIPE", ZTS_ESTRPIPE),
   ("ZTS_EUSERS", ZTS_EUSERS), ("ZTS_ENOTSOCK", ZTS_ENOTSOCK),
   ("ZTS_EDESTADDRREQ", ZTS_EDESTADDRREQ), ("ZTS_EMSGSIZE", ZTS_EMSGSIZE),
   ("ZTS_EPROTOTYPE", ZTS_EPROTOTYPE), ("ZTS_ENOPROTOOPT", ZTS_ENOPROTOOPT),
   ("ZTS_EPROTONOSUPPORT", ZTS_EPROTONOSUPPORT), ("ZTS_ESOCKTNOSUPPORT", ZTS_ESOCKTNOSUPPORT),
   ("ZTS_EOPNOTSUPP", ZTS_EOPNOTSUPP), ("ZTS_EPFNOSUPPORT", ZTS_EPFNOSUPPORT),
   ("ZTS_EAFNOSUPPORT", ZTS_EAFNOSUPPORT), ("ZTS_EADDRINUSE", ZTS_EADDRINUSE),
   ("ZTS_EADDRNOTAVAIL", ZTS_EADDRNOTAVAIL), ("ZTS_ENETDOWN", ZTS_ENETDOWN),
   ("ZTS_ENETUNREACH", ZTS_ENETUNREACH), ("ZTS_ENETRESET", ZTS_ENETRESET),
   ("ZTS_ECONNABORTED", ZTS_ECONNABORTED), ("ZTS_ECONNRESET", ZTS_ECONNRESET),
   ("ZTS_ENOBUFS", ZTS_ENOBUFS), ("ZTS_EISCONN", ZTS_EISCONN),
   ("ZTS_ENOTCONN", ZTS_ENOTCONN), ("ZTS_ESHUTDOWN", ZTS_ESHUTDOWN),
   ("ZTS_ETOOMANYREFS", ZTS_ETOOMANYREFS), ("ZTS_ETIMEDOUT", ZTS_ETIMEDOUT),
   ("ZTS_ECONNREFUSED", ZTS_ECONNREFUSED), ("ZTS_EHOSTDOWN", ZTS_EHOSTDOWN),
   ("ZTS_EHOSTUNREACH", ZTS_EHOSTUNREACH), ("ZTS_EALREADY", ZTS_EALREADY),
   ("ZTS_EINPROGRESS", ZTS_EINPROGRESS), ("ZTS_ESTALE", ZTS_ESTALE),
   ("ZTS_EUCLEAN", ZTS_EUCLEAN), ("ZTS_ENOTNAM", ZTS_ENOTNAM),
   ("ZTS_ENAVAIL", ZTS_ENAVAIL), ("ZTS_EISNAM", ZTS_EISNAM),
   ("ZTS_EREMOTEIO", ZTS_EREMOTEIO), ("ZTS_EDQUOT", ZTS_EDQUOT),
   ("ZTS_ENOMEDIUM", ZTS_ENOMEDIUM), ("ZTS_EMEDIUMTYPE", ZTS_EMEDIUMTYPE)]

/-! ## Socket-call constants -/

def ZTS_SOCK_STREAM : Nat := 0x0001
def ZTS_SOCK_DGRAM : Nat := 0x0002
def ZTS_SOCK_RAW : Nat := 0x0003

def ZTS_AF_UNSPEC : Nat := 0x0000
def ZTS_AF_INET : Nat := 0x0002
def ZTS_AF_INET6 : Nat := 0x000a
def ZTS_PF_INET : Nat := ZTS_AF_INET
def ZTS_PF_INET6 : Nat := ZTS_AF_INET6
def ZTS_PF_UNSPEC : Nat := ZTS_AF_UNSPEC

/-! ## IP address type discriminator -/

/-- The discriminator of the address union: `enum zts_ip_addr_type`. -/
inductive zts_ip_addr_type where
  | ZTS_IPADDR_TYPE_V4
  | ZTS_IPADDR_TYPE_V6
  | ZTS_IPADDR_TYPE_ANY
  deriving DecidableEq, Repr, Fintype

/-- The unsigned value the header gives each member of
`enum zts_ip_addr_type`. -/
def zts_ip_addr_type.toNat : zts_ip_addr_type → Nat
  | .ZTS_IPADDR_TYPE_V4 => 0
  | .ZTS_IPADDR_TYPE_V6 => 6
  | .ZTS_IPADDR_TYPE_ANY => 46

/-- Number of values of the `uint8_t type` field of `struct zts_ip_addr`. -/
def zts_ip_addr_type_field_card : Nat := 2 ^ 8

/-! ## Text lengths and well-known IPv4 addresses -/

def ZTS_INET_ADDRSTRLEN : Nat := 16
def ZTS_INET6_ADDRSTRLEN : Nat := 46

/-- Maximum (and required) length of string buffers used to receive
string-format IP addresses from the API. -/
def ZTS_IP_MAX_STR_LEN : Nat := ZTS_INET6_ADDRSTRLEN

def ZTS_IPADDR_NONE : Nat := 0xffffffff
def ZTS_IPADDR_LOOPBACK : Nat := 0x7f000001
def ZTS_IPADDR_ANY : Nat := 0x00000000
def ZTS_IPADDR_BROADCAST : Nat := 0xffffffff

def ZTS_INADDR_NONE : Nat := ZTS_IPADDR_NONE
def ZTS_INADDR_LOOPBACK : Nat := ZTS_IPADDR_LOOPBACK
def ZTS_INADDR_ANY : Nat := ZTS_IPADDR_ANY
def ZTS_INADDR_BROADCAST : Nat := ZTS_IPADDR_BROADCAST

/-- The four octets of a `uint32_t` address constant, most significant
first: the reading under which the header annotates `0x7f000001` with
`127.0.0.1`. -/
def dotted_quad (v : Nat) : List Nat :=
  [v / 2 ^ 24 % 256, v / 2 ^ 16 % 256, v / 2 ^ 8 % 256, v % 256]

/-! ## ioctl command values -/

def ZTS_IOCPARM_MASK : Nat := 0x7f
def ZTS_IOC_VOID : Nat := 0x20000000
def ZTS_IOC_OUT : Nat := 0x40000000
def ZTS_IOC_IN : Nat := 0x80000000
def ZTS_IOC_INOUT : Nat := ZTS_IOC_IN ||| ZTS_IOC_OUT

/-- The macro `ZTS_IO(x, y)`. -/
def ZTS_IO (x y : Nat) : Nat :=
  ZTS_IOC_VOID ||| (x <<< 8) ||| y

/-- The macro `ZTS_IOR(x, y, t)`; `sizeof_t` stands for `sizeof(t)`. -/
def ZTS_IOR (x y sizeof_t : Nat) : Nat :=
  ZTS_IOC_OUT ||| ((sizeof_t &&& ZTS_IOCPARM_MASK) <<< 16) ||| (x <<< 8) ||| y

/-- The macro `ZTS_IOW(x, y, t)`; `sizeof_t` stands for `sizeof(t)`. -/
def ZTS_IOW (x y sizeof_t : Nat) : Nat :=
  ZTS_IOC_IN ||| ((sizeof_t &&& ZTS_IOCPARM_MASK) <<< 16) ||| (x <<< 8) ||| y

/-- `ZTS_FIONREAD`, that is `ZTS_IOR('f', 127, unsigned long)`; the size of
`unsigned long` depends on the platform and is a parameter. -/
def ZTS_FIONREAD (sizeof_unsigned_long : Nat) : Nat :=
  ZTS_IOR 'f'.toNat 127 sizeof_unsigned_long

/-- `ZTS_FIONBIO`, that is `ZTS_IOW('f', 126, unsigned long)`; the size of
`unsigned long` depends on the platform and is a parameter. -/
def ZTS_FIONBIO (sizeof_unsigned_long : Nat) : Nat :=
  ZTS_IOW 'f'.toNat 126 sizeof_unsigned_long

/-! ## Descriptor sets for `zts_select` -/

def LWIP_SOCKET_OFFSET : Int := 0
def MEMP_NUM_NETCONN : Int := 1024

/-- Make FD_SETSIZE match NUM_SOCKETS in socket.c. -/
def ZTS_FD_SETSIZE : Int := MEMP_NUM_NETCONN

/-- Number of elements of `fd_bits`: `(ZTS_FD_SETSIZE + 7) / 8`. -/
def zts_fd_set_fd_bits_len : Nat := (Int.tdiv (ZTS_FD_SETSIZE + 7) 8).toNat

/-- The record `zts_fd_set`: `unsigned char fd_bits[(ZTS_FD_SETSIZE + 7) / 8]`,
one list element per byte. -/
structure zts_fd_set where
  fd_bits : List Nat
  deriving DecidableEq, Repr

/-- A value of type `zts_fd_set`: `fd_bits` has its declared number of
elements and each is an `unsigned char`. -/
def zts_fd_set.wf (p : zts_fd_set) : Prop :=
  p.fd_bits.length = zts_fd_set_fd_bits_len ∧ ∀ b ∈ p.fd_bits, b < 256

instance (p : zts_fd_set) : Decidable p.wf := by
  unfold zts_fd_set.wf
  infer_instance

/-- The least value of the type `int` (32 bits). -/
def INT_MIN : Int := -2147483648

/-- The greatest value of the type `int` (32 bits). -/
def INT_MAX : Int := 2147483647

/-- The conversion `(int)(n)` of an integer of any width: the value is reduced
modulo `2 ^ 32` into `INT_MIN .. INT_MAX`. -/
def int_cast (n : Int) : Int :=
  (n + 2147483648) % 4294967296 - 2147483648

/-- The condition shared by `ZTS_FDSETSAFESET` and `ZTS_FDSETSAFEGET`:
`((n)-LWIP_SOCKET_OFFSET < MEMP_NUM_NETCONN) && (((int)(n)-LWIP_SOCKET_OFFSET) >= 0)`.
The first comparison is made in the type of the argument `n`, the second
after the conversion to `int`. -/
def ZTS_FDSETSAFE (n : Int) : Bool :=
  decide (n - LWIP_SOCKET_OFFSET < MEMP_NUM_NETCONN)
    && decide (int_cast n - LWIP_SOCKET_OFFSET ≥ 0)

/-- The macro `ZTS_FDSETSAFESET(n, code)`: run `code` when the condition
holds, do nothing otherwise. `none` stands for an access outside `fd_bits`. -/
def ZTS_FDSETSAFESET (n : Int) (code : zts_fd_set → Option zts_fd_set)
    (p : zts_fd_set) : Option zts_fd_set :=
  if ZTS_FDSETSAFE n then code p else some p

/-- The macro `ZTS_FDSETSAFEGET(n, code)`: the value of `code` when the
condition holds, `0` otherwise. `none` stands for an access outside
`fd_bits`. -/
def ZTS_FDSETSAFEGET (n : Int) (code : zts_fd_set → Option Nat)
    (p : zts_fd_set) : Option Nat :=
  if ZTS_FDSETSAFE n then code p else some 0

/-- The subscript `((n)-LWIP_SOCKET_OFFSET) / 8`, with the division of C. -/
def fd_bits_index (n : Int) : Int :=
  Int.tdiv (n - LWIP_SOCKET_OFFSET) 8

/-- The mask `1 << (((n)-LWIP_SOCKET_OFFSET) & 7)`. -/
def fd_bits_mask (n : Int) : Nat :=
  1 <<< ((n - LWIP_SOCKET_OFFSET) % 8).toNat

/-- The complement `~x` of a non-negative `int`, as the bit pattern of a
32-bit `int`. -/
def int_complement (x : Nat) : Nat :=
  x ^^^ 0xffffffff

/-- Read `p->fd_bits[i]`; `none` when `i` is not a subscript of `fd_bits`. -/
def fd_bits_read (p : zts_fd_set) (i : Int) : Option Nat :=
  if 0 ≤ i then p.fd_bits[i.toNat]? else none

/-- Store `v`, converted to `unsigned char`, in `p->fd_bits[i]`; `none` when
`i` is not a subscript of `fd_bits`. -/
def fd_bits_write (p : zts_fd_set) (i : Int) (v : Nat) : Option zts_fd_set :=
  if 0 ≤ i ∧ i.toNat < p.fd_bits.length then
    some ⟨p.fd_bits.set i.toNat (v % 256)⟩
  else none

/-- The macro `ZTS_FD_SET(n, p)`:
`fd_bits[(n - LWIP_SOCKET_OFFSET) / 8] |= (1 << ((n - LWIP_SOCKET_OFFSET) & 7))`
under `ZTS_FDSETSAFESET`. -/
def ZTS_FD_SET (n : Int) (p : zts_fd_set) : Option zts_fd_set :=
  ZTS_FDSETSAFESET n
    (fun q => (fd_bits_read q (fd_bits_index n)).bind
      (fun b => fd_bits_write q (fd_bits_index n) (b ||| fd_bits_mask n))) p

/-- The macro `ZTS_FD_CLR(n, p)`:
`fd_bits[(n - LWIP_SOCKET_OFFSET) / 8] &= ~(1 << ((n - LWIP_SOCKET_OFFSET) & 7))`
under `ZTS_FDSETSAFESET`. -/
def ZTS_FD_CLR (n : Int) (p : zts_fd_set) : Option zts_fd_set :=
  ZTS_FDSETSAFESET n
    (fun q => (fd_bits_read q (fd_bits_index n)).bind
      (fun b => fd_bits_write q (fd_bits_index n) (b &&& int_complement (fd_bits_mask n)))) p

/-- The macro `ZTS_FD_ISSET(n, p)`:
`fd_bits[(n - LWIP_SOCKET_OFFSET) / 8] & (1 << ((n - LWIP_SOCKET_OFFSET) & 7))`
under `ZTS_FDSETSAFEGET`. -/
def ZTS_FD_ISSET (n : Int) (p : zts_fd_set) : Option Nat :=
  ZTS_FDSETSAFEGET n
    (fun q => (fd_bits_read q (fd_bits_index n)).map (fun b => b &&& fd_bits_mask n)) p

/-- The macro `ZTS_FD_ZERO(p)`: `memset((void*)(p), 0, sizeof(*(p)))`. -/
def ZTS_FD_ZERO (_p : zts_fd_set) : zts_fd_set :=
  ⟨List.replicate zts_fd_set_fd_bits_len 0⟩

/-! ## Virtual socket descriptors (modelled from the spec) -/

/-- Modelled from the spec: a VirtualSocket (section 3), reduced to its
descriptor and the three arguments of the open call. The header declares
`zts_socket` and `zts_close` without bodies. -/
structure VirtualSocket where
  fd : Nat
  family : Int
  type : Int
  protocol : Int
  deriving DecidableEq, Repr

/-- Modelled from the spec: the descriptor table of the VirtualSocketLayer
(section 4.3), the open sockets, newest first. The secondary error value that
socket calls also set is not part of this model. -/
structure FdTable where
  sockets : List VirtualSocket
  deriving DecidableEq, Repr

/-- Modelled from the spec: the states of the NodeLifecycle machine
(section 4.1), `uninitialized → starting → started(offline) → started(online)
⇄ started(offline) → stopping → stopped`. The header declares the lifecycle
calls without bodies. -/
inductive NodeLifecycle where
  | uninitialized
  | starting
  | started_offline
  | started_online
  | stopping
  | stopped
  deriving DecidableEq, Repr

/-- Modelled from the spec: the pre-start configuration (sections 4.1
and 6): identity source (storage path or in-memory key material), event
handler, bind port, blacklist rules, planet configuration and the two caching
toggles. -/
structure NodeConfig where
  storage_path : Option (List Char)
  key : Option (List Nat)
  event_handler : Option Nat
  port : Nat
  blacklist_if : List (List Char)
  blacklist_ip4 : List (List Char)
  blacklist_ip6 : List (List Char)
  planet : Option (List Nat)
  allow_net_cache : Bool
  allow_peer_cache : Bool
  deriving DecidableEq, Repr

/-- Modelled from the spec: the status of a network membership
(section 3). -/
inductive NetworkStatus where
  | requesting
  | ok
  | access_denied
  | not_found
  | client_too_old
  deriving DecidableEq, Repr

/-- Modelled from the spec: a VirtualNetwork membership (section 3), reduced
to the network id and the status. -/
structure VirtualNetwork where
  net_id : Nat
  status : NetworkStatus
  deriving DecidableEq, Repr

/-- Modelled from the spec: the state the calls of the header act on: the
lifecycle state, the stored configuration, the memberships, the events
delivered so far (event code and network id), the descriptor table and the
secondary error value `zts_errno`. -/
structure ServiceState where
  lifecycle : NodeLifecycle
  config : NodeConfig
  networks : List VirtualNetwork
  events : List (ZTS_Event × Nat)
  fd_table : FdTable
  zts_errno : Int
  deriving DecidableEq, Repr

/-! ## Address derivation and text conversion (modelled from the spec) -/

/-- Modelled from the spec: the bit layouts of the AddressDeriver
(section 4.2). The header declares `zts_addr_compute_6plane` and
`zts_addr_compute_rfc4193` without bodies, and the spec describes the layout
("a reserved prefix, a hash/fold of the network id, and the node id placed in
fixed bit positions") without giving the positions, so each layout is a
parameter: a function from (network id, node id) to address bytes. -/
structure AddressDeriver where
  sixplane : Nat → Nat → List Nat
  rfc4193 : Nat → Nat → List Nat

/-- The 16 elements `u8_addr[16]` of a `zts_in6_addr` filled from `l`. -/
def in6_addr_bytes (l : List Nat) : List Nat :=
  (List.range 16).map (fun i => l.getD i 0 % 256)

/-- Modelled from the spec: `zts_addr_compute_6plane`, a pure function of
(network id, node id): it reads nothing of the state `_st`. `addr` says
whether the destination pointer is non-null; the result is the return code
and the address bytes written. -/
def zts_addr_compute_6plane (d : AddressDeriver) (_st : ServiceState)
    (net_id node_id : Nat) (addr : Bool) : Int × Option (List Nat) :=
  if addr then
    (ZTS_Error.ZTS_ERR_OK.toInt, some (in6_addr_bytes (d.sixplane (net_id % 2 ^ 64) (node_id % 2 ^ 64))))
  else (ZTS_Error.ZTS_ERR_ARG.toInt, none)

/-- Modelled from the spec: `zts_addr_compute_rfc4193`, a pure function of
(network id, node id): it reads nothing of the state `_st`. `addr` says
whether the destination pointer is non-null; the result is the return code
and the address bytes written. -/
def zts_addr_compute_rfc4193 (d : AddressDeriver) (_st : ServiceState)
    (net_id node_id : Nat) (addr : Bool) : Int × Option (List Nat) :=
  if addr then
    (ZTS_Error.ZTS_ERR_OK.toInt, some (in6_addr_bytes (d.rfc4193 (net_id % 2 ^ 64) (node_id % 2 ^ 64))))
  else (ZTS_Error.ZTS_ERR_ARG.toInt, none)

/-- Modelled from the spec: a step of `zts_inet_ntop`, the lower-case
hexadecimal digit of a number below 16. -/
def hex_digit (d : Nat) : Char :=
  if d < 10 then Char.ofNat ('0'.toNat + d) else Char.ofNat ('a'.toNat + (d - 10))

/-- Modelled from the spec: a step of `zts_inet_pton`, the value of a
hexadecimal digit of either case. -/
def hex_value (c : Char) : Option Nat :=
  if '0'.toNat ≤ c.toNat ∧ c.toNat ≤ '9'.toNat then some (c.toNat - '0'.toNat)
  else if 'a'.toNat ≤ c.toNat ∧ c.toNat ≤ 'f'.toNat then some (c.toNat - 'a'.toNat + 10)
  else if 'A'.toNat ≤ c.toNat ∧ c.toNat ≤ 'F'.toNat then some (c.toNat - 'A'.toNat + 10)
  else none

/-- Modelled from the spec: a step of `zts_inet_ntop`, the text of one 16-bit
group: hexadecimal without leading zeros. -/
def hex_group (g : Nat) : List Char :=
  if g < 0x10 then [hex_digit g]
  else if g < 0x100 then [hex_digit (g / 0x10), hex_digit (g % 0x10)]
  else if g < 0x1000 then
    [hex_digit (g / 0x100), hex_digit (g / 0x10 % 0x10), hex_digit (g % 0x10)]
  else
    [hex_digit (g / 0x1000 % 0x10), hex_digit (g / 0x100 % 0x10),
     hex_digit (g / 0x10 % 0x10), hex_digit (g % 0x10)]

/-- Modelled from the spec: a step of `zts_inet_pton`, the value of
hexadecimal digits read left to right, starting from `acc`. -/
def hex_digits_value : List Char → Nat → Option Nat
  | [], acc => some acc
  | c :: cs, acc =>
    match hex_value c with
    | some v => hex_digits_value cs (acc * 16 + v)
    | none => none

/-- Modelled from the spec: a step of `zts_inet_pton`, the value of one group
of the text: one to four hexadecimal digits. -/
def parse_hex_group (s : List Char) : Option Nat :=
  if s.length = 0 ∨ 4 < s.length then none else hex_digits_value s 0

/-- Modelled from the spec: a step of `zts_inet_pton`, the values of a list
of groups; `none` when one of them is malformed. -/
def parse_hex_groups : List (List Char) → Option (List Nat)
  | [] => some []
  | s :: ss =>
    match parse_hex_group s, parse_hex_groups ss with
    | some g, some gs => some (g :: gs)
    | _, _ => none

/-- Modelled from the spec: a step of `zts_inet_ntop`, the eight 16-bit
groups of sixteen address bytes, in network order. -/
def groups_of_bytes : List Nat → List Nat
  | hi :: lo :: rest => (hi * 256 + lo) :: groups_of_bytes rest
  | _ => []

/-- Modelled from the spec: a step of `zts_inet_pton`, the address bytes of a
list of 16-bit groups, in network order. -/
def bytes_of_groups : List Nat → List Nat
  | [] => []
  | g :: gs => g / 256 % 256 :: g % 256 :: bytes_of_groups gs

/-- Modelled from the spec: a step of `zts_inet_ntop`, the number of zero
groups at the head of a list of groups. -/
def zero_run : List Nat → Nat
  | 0 :: gs => zero_run gs + 1
  | _ => 0

/-- Modelled from the spec: a step of `zts_inet_ntop`, start and length of
the longest run of zero groups, the leftmost of the longest ones; length 0
when no group is zero. -/
def longest_zero_run (gs : List Nat) : Nat × Nat :=
  (List.range gs.length).foldl
    (fun best i => if best.2 < zero_run (gs.drop i) then (i, zero_run (gs.drop i)) else best)
    (0, 0)

/-- Modelled from the spec: a step of `zts_inet_ntop`, the colon-separated
pieces of the text of an address: the groups as hexadecimal, with the longest run of two or more zero groups replaced by one
empty piece, and one more empty piece when the run is at either end (so that
the text shows `::` there). -/
def ip6_text_pieces (gs : List Nat) : List (List Char) :=
  if (longest_zero_run gs).2 < 2 then gs.map hex_group
  else
    (if (longest_zero_run gs).1 = 0 then [[]]
      else (gs.take (longest_zero_run gs).1).map hex_group)
    ++ [[]]
    ++ (if gs.length ≤ (longest_zero_run gs).1 + (longest_zero_run gs).2 then [[]]
      else (gs.drop ((longest_zero_run gs).1 + (longest_zero_run gs).2)).map hex_group)

/-- Modelled from the spec: the text `zts_inet_ntop` produces for the IPv6
address held in sixteen bytes. -/
def ip6_text (src : List Nat) : List Char :=
  [':'].intercalate (ip6_text_pieces (groups_of_bytes src))

/-- Modelled from the spec: `zts_inet_ntop(ZTS_AF_INET6, src, dst, size)`,
declared in the header without a body. The spec asks for "standard
`inet_ntop`/`inet_pton` semantics"; this is the standard text form of an IPv6
address: eight hexadecimal groups separated by colons, leading zeros dropped,
the longest run of zero groups written `::`. The mixed form with a dotted IPv4
tail is left out. `src` is the sixteen bytes of the address; the result is the
text stored in `dst` (without the terminating NUL), or `none` for the null
pointer returned when `size` is too small for the text and its terminator. -/
def zts_inet_ntop_inet6 (src : List Nat) (size : Nat) : Option (List Char) :=
  if (ip6_text src).length + 1 ≤ size then some (ip6_text src) else none

/-- Modelled from the spec: a step of `zts_inet_pton`. A text may begin with
`::` but not with a single colon: of two empty
leading pieces the first is dropped, a lone empty leading piece is an error. -/
def strip_leading_colon : List (List Char) → Option (List (List Char))
  | [] :: [] :: rest => some ([] :: rest)
  | [] :: _ => none
  | pieces => some pieces

/-- Modelled from the spec: a step of `zts_inet_pton`, the same rule at the
end of the text. -/
def strip_trailing_colon (pieces : List (List Char)) : Option (List (List Char)) :=
  (strip_leading_colon pieces.reverse).map List.reverse

/-- Modelled from the spec: a step of `zts_inet_pton`. Split the pieces at
the first empty one: the pieces before it, and the
pieces after it when there is one. -/
def split_at_gap : List (List Char) → List (List Char) × Option (List (List Char))
  | [] => ([], none)
  | [] :: rest => ([], some rest)
  | (c :: cs) :: rest => ((c :: cs) :: (split_at_gap rest).1, (split_at_gap rest).2)

/-- Modelled from the spec: a step of `zts_inet_pton`, the eight groups
denoted by the pieces of a text: without an empty piece
there must be eight groups; an empty piece stands for the zero groups that
fill the address up to eight. -/
def ip6_groups_of_pieces (pieces : List (List Char)) : Option (List Nat) :=
  match split_at_gap pieces with
  | (front, none) =>
    if front.length = 8 then parse_hex_groups front else none
  | (front, some back) =>
    if front.length + back.length < 8 then
      match parse_hex_groups front, parse_hex_groups back with
      | some f, some b => some (f ++ List.replicate (8 - front.length - back.length) 0 ++ b)
      | _, _ => none
    else none

/-- Modelled from the spec: `zts_inet_pton(ZTS_AF_INET6, src, dst)`, declared
in the header without a body, with the standard semantics the spec asks for:
`src` (without its terminating NUL) is split at the colons, `::` may occur
once and stands for a run of zero groups, every other piece is one to four
hexadecimal digits. The result is the return value (`1` on success, `0` for a
text that is not an address) and the sixteen bytes stored at `dst`. -/
def zts_inet_pton_inet6 (src : List Char) : Int × Option (List Nat) :=
  match (strip_leading_colon (src.splitOn ':')).bind strip_trailing_colon with
  | some pieces =>
    match ip6_groups_of_pieces pieces with
    | some gs => (1, some (bytes_of_groups gs))
    | none => (0, none)
  | none => (0, none)

/-- Modelled from the spec: `zts_addr_compute_6plane_str`, declared in the
header without a body: the argument check (`dst` says whether the destination
pointer is non-null, `len` "must be exactly `ZTS_IP_MAX_STR_LEN`"), then the
text of the derived address. The result is the return code, the state after
the call and the text written to `dst`. -/
def zts_addr_compute_6plane_str (d : AddressDeriver) (st : ServiceState)
    (net_id node_id : Nat) (dst : Bool) (len : Int) :
    Int × ServiceState × Option (List Char) :=
  if dst = false ∨ len ≠ (ZTS_IP_MAX_STR_LEN : Int) then (ZTS_Error.ZTS_ERR_ARG.toInt, st, none)
  else
    match zts_addr_compute_6plane d st net_id node_id true with
    | (code, some bytes) => (code, st, zts_inet_ntop_inet6 bytes ZTS_IP_MAX_STR_LEN)
    | (code, none) => (code, st, none)

/-- Modelled from the spec: `zts_addr_compute_rfc4193_str`, declared in the
header without a body: the argument check (`dst` says whether the destination
pointer is non-null, `len` "must be exactly `ZTS_IP_MAX_STR_LEN`"), then the
text of the derived address. The result is the return code, the state after
the call and the text written to `dst`. -/
def zts_addr_compute_rfc4193_str (d : AddressDeriver) (st : ServiceState)
    (net_id node_id : Nat) (dst : Bool) (len : Int) :
    Int × ServiceState × Option (List Char) :=
  if dst = false ∨ len ≠ (ZTS_IP_MAX_STR_LEN : Int) then (ZTS_Error.ZTS_ERR_ARG.toInt, st, none)
  else
    match zts_addr_compute_rfc4193 d st net_id node_id true with
    | (code, some bytes) => (code, st, zts_inet_ntop_inet6 bytes ZTS_IP_MAX_STR_LEN)
    | (code, none) => (code, st, none)

/-! ## Socket address records -/

/-- The alignment requirements of `uint16_t` and `uint32_t`, which the header
leaves to the platform. -/
structure c_abi where
  align_uint16 : Nat
  align_uint32 : Nat
  deriving DecidableEq, Repr

/-- A member of a record: its name, its size in bytes and its alignment. -/
structure c_member where
  name : String
  size : Nat
  align : Nat
  deriving DecidableEq, Repr

/-- A member of type `uint8_t`, `zts_sa_family_t` or `char[n]`: `n` bytes,
alignment 1. -/
def c_bytes (name : String) (n : Nat) : c_member := ⟨name, n, 1⟩

/-- A member of type `uint16_t` or `zts_in_port_t`. -/
def c_uint16 (abi : c_abi) (name : String) : c_member := ⟨name, 2, abi.align_uint16⟩

/-- A member of type `uint32_t[n]`. -/
def c_uint32 (abi : c_abi) (name : String) (n : Nat) : c_member :=
  ⟨name, 4 * n, abi.align_uint32⟩

/-- The least multiple of `align` that is not below `offset`. -/
def c_round_up (offset align : Nat) : Nat :=
  (offset + align - 1) / align * align

/-- The alignment of a record: the largest alignment of its members. -/
def c_alignof (members : List c_member) : Nat :=
  members.foldl (fun a m => max a m.align) 1

/-- The size of a `struct`: each member is placed at the next offset that
suits its alignment, and the end is rounded up to the alignment of the
record. -/
def c_sizeof_struct (members : List c_member) : Nat :=
  c_round_up (members.foldl (fun offset m => c_round_up offset m.align + m.size) 0)
    (c_alignof members)

/-- The size of a `union`: the size of its largest member, rounded up to the
alignment of the record. -/
def c_sizeof_union (members : List c_member) : Nat :=
  c_round_up (members.foldl (fun s m => max s m.size) 0) (c_alignof members)

/-- The sum of the sizes of the members, the size of a record without
padding. -/
def c_sum_of_sizes (members : List c_member) : Nat :=
  (members.map c_member.size).sum

/-- The members of `struct zts_in_addr`. -/
def zts_in_addr (abi : c_abi) : List c_member :=
  [c_uint32 abi "s_addr" 1]

/-- The members of `union un` of `struct zts_in6_addr`. -/
def zts_in6_addr_un (abi : c_abi) : List c_member :=
  [c_uint32 abi "u32_addr" 4, c_bytes "u8_addr" 16]

/-- The members of `struct zts_in6_addr`. -/
def zts_in6_addr (abi : c_abi) : List c_member :=
  [⟨"un", c_sizeof_union (zts_in6_addr_un abi), c_alignof (zts_in6_addr_un abi)⟩]

def SIN_ZERO_LEN : Nat := 8

/-- The members of `struct zts_sockaddr_in`. -/
def zts_sockaddr_in (abi : c_abi) : List c_member :=
  [c_bytes "sin_len" 1, c_bytes "sin_family" 1, c_uint16 abi "sin_port",
   ⟨"sin_addr", c_sizeof_struct (zts_in_addr abi), c_alignof (zts_in_addr abi)⟩,
   c_bytes "sin_zero" SIN_ZERO_LEN]

/-- The members of `struct zts_sockaddr_in6`. -/
def zts_sockaddr_in6 (abi : c_abi) : List c_member :=
  [c_bytes "sin6_len" 1, c_bytes "sin6_family" 1, c_uint16 abi "sin6_port",
   c_uint32 abi "sin6_flowinfo" 1,
   ⟨"sin6_addr", c_sizeof_struct (zts_in6_addr abi), c_alignof (zts_in6_addr abi)⟩,
   c_uint32 abi "sin6_scope_id" 1]

/-- The members of `struct zts_sockaddr`. -/
def zts_sockaddr : List c_member :=
  [c_bytes "sa_len" 1, c_bytes "sa_family" 1, c_bytes "sa_data" 14]

/-- The members of `struct zts_sockaddr_storage`. -/
def zts_sockaddr_storage (abi : c_abi) : List c_member :=
  [c_bytes "s2_len" 1, c_bytes "ss_family" 1, c_bytes "s2_data1" 2,
   c_uint32 abi "s2_data2" 3, c_uint32 abi "s2_data3" 3]

/-! ## Theorems -/

/-- Closed form of the big-endian assembly of the ad-hoc byte layout. -/
theorem adhoc_id_closed_form (s e : Nat) (hs : s < 2 ^ 16) (he : e < 2 ^ 16) :
    zts_net_compute_adhoc_id s e = 0xff * 2 ^ 56 + s * 2 ^ 40 + e * 2 ^ 24 := by
  simp only [zts_net_compute_adhoc_id, assemble_big_endian, adhoc_id_bytes,
    ZTS_ADHOC_RESERVED, List.foldl_cons, List.foldl_nil]
  norm_num at hs he ⊢
  omega

/-- C1: for 16-bit ports with `start_port ≤ end_port` the ad-hoc id is
`0xff*2^56 + start_port*2^40 + end_port*2^24`; its top byte is the reserved
prefix `0xff`, the next 16 bits are `start_port`, the next 16 bits are
`end_port`, and the low 24 bits are zero. -/
theorem adhoc_id_layout (start_port end_port : Nat)
    (hs : start_port < 2 ^ 16) (he : end_port < 2 ^ 16) (_hle : start_port ≤ end_port) :
    zts_net_compute_adhoc_id start_port end_port
        = 0xff * 2 ^ 56 + start_port * 2 ^ 40 + end_port * 2 ^ 24
      ∧ zts_net_compute_adhoc_id start_port end_port < 2 ^ 64
      ∧ zts_net_compute_adhoc_id start_port end_port / 2 ^ 56 = 0xff
      ∧ zts_net_compute_adhoc_id start_port end_port / 2 ^ 40 % 2 ^ 16 = start_port
      ∧ zts_net_compute_adhoc_id start_port end_port / 2 ^ 24 % 2 ^ 16 = end_port
      ∧ zts_net_compute_adhoc_id start_port end_port % 2 ^ 24 = 0 := by
  rw [adhoc_id_closed_form start_port end_port hs he]
  norm_num at hs he ⊢
  omega

/-- Witness for C1 at the port range 80..443. -/
theorem adhoc_id_layout_witness :
    zts_net_compute_adhoc_id 80 443 = 0xff * 2 ^ 56 + 80 * 2 ^ 40 + 443 * 2 ^ 24
      ∧ zts_net_compute_adhoc_id 80 443 < 2 ^ 64
      ∧ zts_net_compute_adhoc_id 80 443 / 2 ^ 56 = 0xff
      ∧ zts_net_compute_adhoc_id 80 443 / 2 ^ 40 % 2 ^ 16 = 80
      ∧ zts_net_compute_adhoc_id 80 443 / 2 ^ 24 % 2 ^ 16 = 443
      ∧ zts_net_compute_adhoc_id 80 443 % 2 ^ 24 = 0 :=
  adhoc_id_layout 80 443 (by decide) (by decide) (by decide)

/-- C2: decoding the ad-hoc id of 16-bit ports `start_port ≤ end_port` by
`(id >> 40) & 0xffff` and `(id >> 24) & 0xffff` gives back `start_port` and
`end_port`. -/
theorem adhoc_id_round_trip (start_port end_port : Nat)
    (hs : start_port < 2 ^ 16) (he : end_port < 2 ^ 16) (_hle : start_port ≤ end_port) :
    (zts_net_compute_adhoc_id start_port end_port >>> 40) &&& 0xffff = start_port
      ∧ (zts_net_compute_adhoc_id start_port end_port >>> 24) &&& 0xffff = end_port := by
  have hmask : ∀ x : Nat, x &&& 0xffff = x % 2 ^ 16 := fun x =>
    Nat.and_pow_two_sub_one_eq_mod x 16
  rw [adhoc_id_closed_form start_port end_port hs he, hmask, hmask,
    Nat.shiftRight_eq_div_pow, Nat.shiftRight_eq_div_pow]
  norm_num at hs he ⊢
  omega

/-- Witness for C2 at the port range 80..443. -/
theorem adhoc_id_round_trip_witness :
    (zts_net_compute_adhoc_id 80 443 >>> 40) &&& 0xffff = 80
      ∧ (zts_net_compute_adhoc_id 80 443 >>> 24) &&& 0xffff = 443 :=
  adhoc_id_round_trip 80 443 (by decide) (by decide) (by decide)

/-- C3: the ad-hoc id is injective over pairs of 16-bit ports with
`start ≤ end`: equal ids come from equal start ports and equal end ports. -/
theorem adhoc_id_injective (s1 e1 s2 e2 : Nat)
    (hs1 : s1 < 2 ^ 16) (he1 : e1 < 2 ^ 16) (_hle1 : s1 ≤ e1)
    (hs2 : s2 < 2 ^ 16) (he2 : e2 < 2 ^ 16) (_hle2 : s2 ≤ e2)
    (hid : zts_net_compute_adhoc_id s1 e1 = zts_net_compute_adhoc_id s2 e2) :
    s1 = s2 ∧ e1 = e2 := by
  rw [adhoc_id_closed_form s1 e1 hs1 he1, adhoc_id_closed_form s2 e2 hs2 he2] at hid
  norm_num at hs1 he1 hs2 he2 hid
  omega

/-- Witness for C3 at the port range 80..443. -/
theorem adhoc_id_injective_witness : (80 : Nat) = 80 ∧ (443 : Nat) = 443 :=
  adhoc_id_injective 80 443 80 443 (by decide) (by decide) (by decide)
    (by decide) (by decide) (by decide) rfl

/-- C4: the documented examples: ports 22..22 give `0xff00160016000000`
(the SSH-only network) and ports 0..65535 give `0xff0000ffff000000` (the
any-port network). -/
theorem adhoc_id_documented_examples :
    zts_net_compute_adhoc_id 22 22 = 0xff00160016000000
      ∧ zts_net_compute_adhoc_id 0 65535 = 0xff0000ffff000000 := by
  constructor <;> rfl

/-- C5: the values of `enum ZTS_Event` are exactly 200..206, 210..219,
220..221, 230..234, 240..244, 250..251, 260..263 and 270..274; every code lies
in the range of its own family; and the 40 codes are pairwise distinct. -/
theorem zts_event_codes :
    (∀ n : Int, (∃ e : ZTS_Event, e.toInt = n) ↔
        (200 ≤ n ∧ n ≤ 206) ∨ (210 ≤ n ∧ n ≤ 219) ∨ (220 ≤ n ∧ n ≤ 221)
        ∨ (230 ≤ n ∧ n ≤ 234) ∨ (240 ≤ n ∧ n ≤ 244) ∨ (250 ≤ n ∧ n ≤ 251)
        ∨ (260 ≤ n ∧ n ≤ 263) ∨ (270 ≤ n ∧ n ≤ 274))
      ∧ (∀ e : ZTS_Event,
          match e.family with
          | .NODE => 200 ≤ e.toInt ∧ e.toInt ≤ 206
          | .NETWORK => 210 ≤ e.toInt ∧ e.toInt ≤ 219
          | .STACK => 220 ≤ e.toInt ∧ e.toInt ≤ 221
          | .NETIF => 230 ≤ e.toInt ∧ e.toInt ≤ 234
          | .PEER => 240 ≤ e.toInt ∧ e.toInt ≤ 244
          | .ROUTE => 250 ≤ e.toInt ∧ e.toInt ≤ 251
          | .ADDR => 260 ≤ e.toInt ∧ e.toInt ≤ 263
          | .CACHE_UPDATE => 270 ≤ e.toInt ∧ e.toInt ≤ 274)
      ∧ Fintype.card ZTS_Event = 40
      ∧ (∀ a b : ZTS_Event, a ≠ b → a.toInt ≠ b.toInt) := by
  refine ⟨fun n => ⟨?_, ?_⟩, ?_, ?_, ?_⟩
  · rintro ⟨e, rfl⟩
    cases e <;> simp [ZTS_Event.toInt]
  · intro h
    have hlo : 200 ≤ n := by omega
    have hhi : n ≤ 274 := by omega
    interval_cases n <;> first | omega | decide
  · intro e
    cases e <;> simp [ZTS_Event.family, ZTS_Event.toInt]
  · rfl
  · intro a b
    cases a <;> cases b <;> simp [ZTS_Event.toInt]

/-- C6: `enum ZTS_Error` has exactly the values `ZTS_ERR_OK = 0`,
`ZTS_ERR_SOCKET = -1`, `ZTS_ERR_SERVICE = -2`, `ZTS_ERR_ARG = -3`,
`ZTS_ERR_NO_RESULT = -4` and `ZTS_ERR_GENERAL = -5`; `ZTS_ERR_OK` is its only
non-negative member, so a code denotes an error exactly when it is negative. -/
theorem zts_error_codes :
    ZTS_Error.ZTS_ERR_OK.toInt = 0
      ∧ ZTS_Error.ZTS_ERR_SOCKET.toInt = -1
      ∧ ZTS_Error.ZTS_ERR_SERVICE.toInt = -2
      ∧ ZTS_Error.ZTS_ERR_ARG.toInt = -3
      ∧ ZTS_Error.ZTS_ERR_NO_RESULT.toInt = -4
      ∧ ZTS_Error.ZTS_ERR_GENERAL.toInt = -5
      ∧ Fintype.card ZTS_Error = 6
      ∧ (∀ n : Int, (∃ e : ZTS_Error, e.toInt = n) ↔ -5 ≤ n ∧ n ≤ 0)
      ∧ (∀ e : ZTS_Error, 0 ≤ e.toInt ↔ e = ZTS_Error.ZTS_ERR_OK)
      ∧ (∀ e : ZTS_Error, e ≠ ZTS_Error.ZTS_ERR_OK ↔ e.toInt < 0) := by
  refine ⟨rfl, rfl, rfl, rfl, rfl, rfl, rfl, fun n => ⟨?_, ?_⟩, ?_, ?_⟩
  · rintro ⟨e, rfl⟩
    cases e <;> simp [ZTS_Error.toInt]
  · rintro ⟨hlo, hhi⟩
    interval_cases n <;> decide
  · intro e
    cases e <;> simp [ZTS_Error.toInt]
  · intro e
    cases e <;> simp [ZTS_Error.toInt]

/-- C7: every `ZTS_E*` constant defined for `zts_errno` has a value in
1..124, `ZTS_EPERM = 1` being the smallest and `ZTS_EMEDIUMTYPE = 124` the
largest. -/
theorem zts_errno_codes_range :
    (∀ c ∈ zts_errno_codes, 1 ≤ c.2 ∧ c.2 ≤ 124)
      ∧ ("ZTS_EPERM", 1) ∈ zts_errno_codes
      ∧ ("ZTS_EMEDIUMTYPE", 124) ∈ zts_errno_codes
      ∧ ZTS_EPERM = 1
      ∧ ZTS_EMEDIUMTYPE = 124
      ∧ (∀ c ∈ zts_errno_codes, ZTS_EPERM ≤ c.2 ∧ c.2 ≤ ZTS_EMEDIUMTYPE)
      ∧ zts_errno_codes.length = 124 := by
  refine ⟨?_, ?_, ?_, rfl, rfl, ?_, rfl⟩
  · decide
  · decide
  · decide
  · decide

/-- C8, as stated, fails: no `ZTS_E*` constant has the value 41, and none has
the value 58, although both lie in 1..124. In the header `ZTS_EWOULDBLOCK` is
`ZTS_EAGAIN` (11) and `ZTS_EDEADLOCK` is `ZTS_EDEADLK` (35). -/
theorem zts_errno_codes_gaps :
    ((1 : Nat) ≤ 41 ∧ (41 : Nat) ≤ 124 ∧ ¬ ∃ c ∈ zts_errno_codes, c.2 = 41)
      ∧ ((1 : Nat) ≤ 58 ∧ (58 : Nat) ≤ 124 ∧ ¬ ∃ c ∈ zts_errno_codes, c.2 = 58) := by
  decide

/-- C8, amended: every `n` in 1..124 other than 41 and 58 is the value of
some `ZTS_E*` constant. -/
theorem zts_errno_codes_cover (n : Nat) (hlo : 1 ≤ n) (hhi : n ≤ 124)
    (h41 : n ≠ 41) (h58 : n ≠ 58) :
    ∃ c ∈ zts_errno_codes, c.2 = n := by
  interval_cases n <;> first | omega | decide

/-- Witness for C8 (amended) at `n = 42`, the value of `ZTS_ENOMSG`. -/
theorem zts_errno_codes_cover_witness : ∃ c ∈ zts_errno_codes, c.2 = 42 :=
  zts_errno_codes_cover 42 (by decide) (by decide) (by decide) (by decide)

/-- C9: the socket-call constants have the published values
(`ZTS_AF_INET = 2`, `ZTS_AF_INET6 = 10`, `ZTS_SOCK_STREAM = 1`,
`ZTS_SOCK_DGRAM = 2`, `ZTS_SOCK_RAW = 3`), each `ZTS_PF_*` alias equals its
`ZTS_AF_*` counterpart, the three socket types are pairwise distinct, and the
families INET, INET6 and UNSPEC (0) are pairwise distinct. -/
theorem zts_socket_constants :
    ZTS_AF_INET = 2 ∧ ZTS_AF_INET6 = 10
      ∧ ZTS_SOCK_STREAM = 1 ∧ ZTS_SOCK_DGRAM = 2 ∧ ZTS_SOCK_RAW = 3
      ∧ ZTS_PF_INET = ZTS_AF_INET ∧ ZTS_PF_INET6 = ZTS_AF_INET6
      ∧ ZTS_PF_UNSPEC = ZTS_AF_UNSPEC
      ∧ ZTS_SOCK_STREAM ≠ ZTS_SOCK_DGRAM ∧ ZTS_SOCK_STREAM ≠ ZTS_SOCK_RAW
      ∧ ZTS_SOCK_DGRAM ≠ ZTS_SOCK_RAW
      ∧ ZTS_AF_UNSPEC = 0
      ∧ ZTS_AF_INET ≠ ZTS_AF_INET6 ∧ ZTS_AF_INET ≠ ZTS_AF_UNSPEC
      ∧ ZTS_AF_INET6 ≠ ZTS_AF_UNSPEC := by
  decide

/-- C10: `enum zts_ip_addr_type` has exactly the values
`ZTS_IPADDR_TYPE_V4 = 0`, `ZTS_IPADDR_TYPE_V6 = 6` and
`ZTS_IPADDR_TYPE_ANY = 46`; they are pairwise distinct and each fits the
8-bit `type` field of `zts_ip_addr`. -/
theorem zts_ip_addr_type_values :
    zts_ip_addr_type.ZTS_IPADDR_TYPE_V4.toNat = 0
      ∧ zts_ip_addr_type.ZTS_IPADDR_TYPE_V6.toNat = 6
      ∧ zts_ip_addr_type.ZTS_IPADDR_TYPE_ANY.toNat = 46
      ∧ Fintype.card zts_ip_addr_type = 3
      ∧ (∀ n : Nat, (∃ t : zts_ip_addr_type, t.toNat = n) ↔ n = 0 ∨ n = 6 ∨ n = 46)
      ∧ (∀ a b : zts_ip_addr_type, a ≠ b → a.toNat ≠ b.toNat)
      ∧ (∀ t : zts_ip_addr_type, t.toNat < zts_ip_addr_type_field_card)
      ∧ zts_ip_addr_type_field_card = 256 := by
  refine ⟨rfl, rfl, rfl, rfl, fun n => ⟨?_, ?_⟩, ?_, ?_, rfl⟩
  · rintro ⟨t, rfl⟩
    cases t <;> simp [zts_ip_addr_type.toNat]
  · rintro (rfl | rfl | rfl) <;> decide
  · intro a b
    cases a <;> cases b <;> simp [zts_ip_addr_type.toNat]
  · intro t
    cases t <;> simp [zts_ip_addr_type.toNat, zts_ip_addr_type_field_card]

/-- An `int` that passes the condition of the safe macros lies in 0..1023. -/
theorem fd_safe_range (n : Int) (hmin : INT_MIN ≤ n) (h : ZTS_FDSETSAFE n = true) :
    0 ≤ n ∧ n < 1024 := by
  simp only [ZTS_FDSETSAFE, LWIP_SOCKET_OFFSET, MEMP_NUM_NETCONN, int_cast, Bool.and_eq_true,
    decide_eq_true_eq, sub_zero] at h
  simp only [INT_MIN] at hmin
  omega

/-- For an `int` under the condition of the safe macros the subscript is
`n / 8`, a subscript of a 128-element array. -/
theorem fd_bits_index_of_safe (n : Int) (hmin : INT_MIN ≤ n) (h : ZTS_FDSETSAFE n = true) :
    0 ≤ fd_bits_index n ∧ fd_bits_index n = n / 8 ∧ (fd_bits_index n).toNat < 128 := by
  obtain ⟨h0, h1⟩ := fd_safe_range n hmin h
  have h8 : fd_bits_index n = n / 8 := by
    simp only [fd_bits_index, LWIP_SOCKET_OFFSET, sub_zero]
    exact Int.tdiv_eq_ediv h0 (by decide)
  rw [h8]
  omega

/-- Reading inside `fd_bits` yields one of its elements. -/
theorem fd_bits_read_isSome (p : zts_fd_set) (i : Int) (h0 : 0 ≤ i)
    (hi : i.toNat < p.fd_bits.length) :
    ∃ b, fd_bits_read p i = some b ∧ b ∈ p.fd_bits := by
  refine ⟨p.fd_bits[i.toNat], ?_, List.getElem_mem _⟩
  simp [fd_bits_read, h0, List.getElem?_eq_getElem hi]

/-- C11: `ZTS_FD_SETSIZE = MEMP_NUM_NETCONN = 1024`, `fd_bits` has
`(1024 + 7) / 8 = 128` bytes, every descriptor `0 ≤ n < 1024` passes the guard
and is looked up at byte `n / 8 < 128`, and for every `n` of type `int` (every
`n` not below `INT_MIN`) `ZTS_FD_SET`, `ZTS_FD_CLR` and `ZTS_FD_ISSET` never
index outside `fd_bits`. -/
theorem zts_fd_set_capacity (n : Int) (p : zts_fd_set) (hp : p.wf)
    (hmin : INT_MIN ≤ n) :
    ZTS_FD_SETSIZE = MEMP_NUM_NETCONN ∧ MEMP_NUM_NETCONN = 1024
      ∧ zts_fd_set_fd_bits_len = (1024 + 7) / 8 ∧ zts_fd_set_fd_bits_len = 128
      ∧ (0 ≤ n → n < 1024 →
          ZTS_FDSETSAFE n = true ∧ fd_bits_index n = n / 8
            ∧ 0 ≤ fd_bits_index n ∧ (fd_bits_index n).toNat < zts_fd_set_fd_bits_len)
      ∧ (ZTS_FD_SET n p).isSome ∧ (ZTS_FD_CLR n p).isSome ∧ (ZTS_FD_ISSET n p).isSome := by
  have hlen : p.fd_bits.length = 128 := hp.1
  refine ⟨rfl, rfl, rfl, rfl, ?_, ?_⟩
  · intro h0 h1
    have hs : ZTS_FDSETSAFE n = true := by
      simp only [ZTS_FDSETSAFE, LWIP_SOCKET_OFFSET, MEMP_NUM_NETCONN, int_cast,
        Bool.and_eq_true, decide_eq_true_eq, sub_zero]
      omega
    obtain ⟨a, b, c⟩ := fd_bits_index_of_safe n hmin hs
    exact ⟨hs, b, a, c⟩
  · by_cases hs : ZTS_FDSETSAFE n = true
    · obtain ⟨a, _, c⟩ := fd_bits_index_of_safe n hmin hs
      obtain ⟨b, hb, _⟩ := fd_bits_read_isSome p (fd_bits_index n) a (by omega)
      simp [ZTS_FD_SET, ZTS_FD_CLR, ZTS_FD_ISSET, ZTS_FDSETSAFESET, ZTS_FDSETSAFEGET, hs, hb,
        fd_bits_write, a, hlen, c]
    · simp [ZTS_FD_SET, ZTS_FD_CLR, ZTS_FD_ISSET, ZTS_FDSETSAFESET, ZTS_FDSETSAFEGET, hs]

/-- Witness for C11 at descriptor 1023 and the empty set. -/
theorem zts_fd_set_capacity_witness :
    ZTS_FD_SETSIZE = MEMP_NUM_NETCONN ∧ MEMP_NUM_NETCONN = 1024
      ∧ zts_fd_set_fd_bits_len = (1024 + 7) / 8 ∧ zts_fd_set_fd_bits_len = 128
      ∧ ((0 : Int) ≤ 1023 → (1023 : Int) < 1024 →
          ZTS_FDSETSAFE 1023 = true ∧ fd_bits_index 1023 = 1023 / 8
            ∧ 0 ≤ fd_bits_index 1023 ∧ (fd_bits_index 1023).toNat < zts_fd_set_fd_bits_len)
      ∧ (ZTS_FD_SET 1023 (ZTS_FD_ZERO ⟨[]⟩)).isSome ∧ (ZTS_FD_CLR 1023 (ZTS_FD_ZERO ⟨[]⟩)).isSome
      ∧ (ZTS_FD_ISSET 1023 (ZTS_FD_ZERO ⟨[]⟩)).isSome :=
  zts_fd_set_capacity 1023 (ZTS_FD_ZERO ⟨[]⟩) (by decide) (by decide)

/-- The conversion to `int` in the condition of the safe macros matters for an
argument of a wider type: the value `-4294967291` of a 64-bit argument is below
`MEMP_NUM_NETCONN` and converts to the `int` 5, so it passes the condition,
and the subscript `-4294967291 / 8 = -536870911` lies outside `fd_bits`. -/
theorem zts_fd_guard_wide_argument :
    int_cast (-4294967291) = 5 ∧ ZTS_FDSETSAFE (-4294967291) = true
      ∧ fd_bits_index (-4294967291) = -536870911
      ∧ ZTS_FD_SET (-4294967291) (ZTS_FD_ZERO ⟨[]⟩) = none := by
  decide

/-- C18: for `sizeof(unsigned long) = s` in {4, 8},
`ZTS_FIONREAD = 0x40000000 + s*2^16 + 0x667f` (group `f`, number 127, only the
OUT direction bit) and `ZTS_FIONBIO = 0x80000000 + s*2^16 + 0x667e` (group `f`,
number 126, only the IN direction bit); the two requests differ. -/
theorem zts_fion_requests (s : Nat) (hs : s = 4 ∨ s = 8) :
    ZTS_FIONREAD s = 0x40000000 + s * 2 ^ 16 + 0x667f
      ∧ ZTS_FIONBIO s = 0x80000000 + s * 2 ^ 16 + 0x667e
      ∧ ( ZTS_FIONREAD s >>> 8) &&& 0xff = 'f'.toNat ∧ ZTS_FIONREAD s &&& 0xff = 127
      ∧ ( ZTS_FIONBIO s >>> 8) &&& 0xff = 'f'.toNat ∧ ZTS_FIONBIO s &&& 0xff = 126
      ∧ ZTS_FIONREAD s &&& 0xe0000000 = ZTS_IOC_OUT
      ∧ ZTS_FIONBIO s &&& 0xe0000000 = ZTS_IOC_IN
      ∧ ( ZTS_FIONREAD s >>> 16) &&& ZTS_IOCPARM_MASK = s
      ∧ ( ZTS_FIONBIO s >>> 16) &&& ZTS_IOCPARM_MASK = s
      ∧ ZTS_FIONREAD s ≠ ZTS_FIONBIO s := by
  rcases hs with rfl | rfl <;> decide

/-- Witness for C18 with an 8-byte `unsigned long`. -/
theorem zts_fion_requests_witness :
    ZTS_FIONREAD 8 = 0x40000000 + 8 * 2 ^ 16 + 0x667f
      ∧ ZTS_FIONBIO 8 = 0x80000000 + 8 * 2 ^ 16 + 0x667e
      ∧ ( ZTS_FIONREAD 8 >>> 8) &&& 0xff = 'f'.toNat ∧ ZTS_FIONREAD 8 &&& 0xff = 127
      ∧ ( ZTS_FIONBIO 8 >>> 8) &&& 0xff = 'f'.toNat ∧ ZTS_FIONBIO 8 &&& 0xff = 126
      ∧ ZTS_FIONREAD 8 &&& 0xe0000000 = ZTS_IOC_OUT
      ∧ ZTS_FIONBIO 8 &&& 0xe0000000 = ZTS_IOC_IN
      ∧ ( ZTS_FIONREAD 8 >>> 16) &&& ZTS_IOCPARM_MASK = 8
      ∧ ( ZTS_FIONBIO 8 >>> 16) &&& ZTS_IOCPARM_MASK = 8
      ∧ ZTS_FIONREAD 8 ≠ ZTS_FIONBIO 8 :=
  zts_fion_requests 8 (Or.inr rfl)

/-- C19: `ZTS_IP_MAX_STR_LEN = ZTS_INET6_ADDRSTRLEN = 46`, the larger of
`ZTS_INET_ADDRSTRLEN = 16` and `ZTS_INET6_ADDRSTRLEN`, so a buffer of
`ZTS_IP_MAX_STR_LEN` bytes is large enough for the text of either family. -/
theorem zts_ip_max_str_len :
    ZTS_IP_MAX_STR_LEN = ZTS_INET6_ADDRSTRLEN
      ∧ ZTS_INET6_ADDRSTRLEN = 46
      ∧ ZTS_INET_ADDRSTRLEN = 16
      ∧ ZTS_IP_MAX_STR_LEN = max ZTS_INET_ADDRSTRLEN ZTS_INET6_ADDRSTRLEN
      ∧ ZTS_INET_ADDRSTRLEN ≤ ZTS_IP_MAX_STR_LEN
      ∧ ZTS_INET6_ADDRSTRLEN ≤ ZTS_IP_MAX_STR_LEN := by
  decide

/-- C20: split into four octets, most significant first,
`ZTS_IPADDR_LOOPBACK` (`0x7f000001`) is 127.0.0.1, `ZTS_IPADDR_ANY` is 0.0.0.0,
`ZTS_IPADDR_NONE` and `ZTS_IPADDR_BROADCAST` (`0xffffffff`) are
255.255.255.255, and every `ZTS_INADDR_*` alias equals its `ZTS_IPADDR_*`
counterpart. -/
theorem zts_ipaddr_constants :
    ZTS_IPADDR_LOOPBACK = 0x7f000001
      ∧ dotted_quad ZTS_IPADDR_LOOPBACK = [127, 0, 0, 1]
      ∧ dotted_quad ZTS_IPADDR_ANY = [0, 0, 0, 0]
      ∧ ZTS_IPADDR_NONE = 0xffffffff ∧ ZTS_IPADDR_BROADCAST = 0xffffffff
      ∧ dotted_quad ZTS_IPADDR_NONE = [255, 255, 255, 255]
      ∧ dotted_quad ZTS_IPADDR_BROADCAST = [255, 255, 255, 255]
      ∧ ZTS_INADDR_NONE = ZTS_IPADDR_NONE
      ∧ ZTS_INADDR_LOOPBACK = ZTS_IPADDR_LOOPBACK
      ∧ ZTS_INADDR_ANY = ZTS_IPADDR_ANY
      ∧ ZTS_INADDR_BROADCAST = ZTS_IPADDR_BROADCAST := by
  decide

/-- A hexadecimal digit has the value it was made from. -/
theorem hex_value_hex_digit (d : Nat) (h : d < 16) : hex_value (hex_digit d) = some d := by
  interval_cases d <;> decide

/-- No hexadecimal digit is a colon. -/
theorem hex_digit_ne_colon (d : Nat) (h : d < 16) : hex_digit d ≠ ':' := by
  interval_cases d <;> decide

/-- The text of a group has at least one digit. -/
theorem hex_group_ne_nil (g : Nat) : hex_group g ≠ [] := by
  unfold hex_group
  split_ifs <;> simp

/-- The text of a group has at most four digits. -/
theorem hex_group_length_le (g : Nat) : (hex_group g).length ≤ 4 := by
  unfold hex_group
  split_ifs <;> simp

/-- The text of a group holds no colon. -/
theorem colon_not_mem_hex_group (g : Nat) : ':' ∉ hex_group g := by
  unfold hex_group
  have h16 : ∀ n, n % 16 < 16 := fun n => Nat.mod_lt _ (by decide)
  split_ifs with h1 h2 h3
  · simp only [List.mem_singleton]
    exact fun h => hex_digit_ne_colon g h1 h.symm
  · have : g / 16 < 16 := by omega
    simp only [List.mem_cons, List.mem_singleton, List.not_mem_nil, or_false]
    rintro (h | h)
    · exact hex_digit_ne_colon _ this h.symm
    · exact hex_digit_ne_colon _ (h16 g) h.symm
  · have : g / 256 < 16 := by omega
    simp only [List.mem_cons, List.mem_singleton, List.not_mem_nil, or_false]
    rintro (h | h | h)
    · exact hex_digit_ne_colon _ this h.symm
    · exact hex_digit_ne_colon _ (h16 _) h.symm
    · exact hex_digit_ne_colon _ (h16 g) h.symm
  · simp only [List.mem_cons, List.mem_singleton, List.not_mem_nil, or_false]
    rintro (h | h | h | h)
    · exact hex_digit_ne_colon _ (h16 _) h.symm
    · exact hex_digit_ne_colon _ (h16 _) h.symm
    · exact hex_digit_ne_colon _ (h16 _) h.symm
    · exact hex_digit_ne_colon _ (h16 g) h.symm

/-- Reading the text of a 16-bit group gives the group back. -/
theorem parse_hex_group_hex_group (g : Nat) (hg : g < 65536) :
    parse_hex_group (hex_group g) = some g := by
  have h16 : ∀ n, n % 16 < 16 := fun n => Nat.mod_lt _ (by decide)
  unfold hex_group
  split_ifs with h1 h2 h3
  · simp [parse_hex_group, hex_digits_value, hex_value_hex_digit g h1]
  · have : g / 16 < 16 := by omega
    simp only [parse_hex_group, hex_digits_value, hex_value_hex_digit _ this,
      hex_value_hex_digit _ (h16 g), List.length_cons, List.length_nil]
    simp
    omega
  · have : g / 256 < 16 := by omega
    simp only [parse_hex_group, hex_digits_value, hex_value_hex_digit _ this,
      hex_value_hex_digit _ (h16 _), List.length_cons, List.length_nil]
    simp
    omega
  · simp only [parse_hex_group, hex_digits_value,
      hex_value_hex_digit _ (h16 _), List.length_cons, List.length_nil]
    simp
    omega

/-- Reading the texts of 16-bit groups gives the groups back. -/
theorem parse_hex_groups_map (gs : List Nat) (h : ∀ g ∈ gs, g < 65536) :
    parse_hex_groups (gs.map hex_group) = some gs := by
  induction gs with
  | nil => rfl
  | cons g gs ih =>
    have hg := parse_hex_group_hex_group g (h g (List.mem_cons_self _ _))
    have hgs := ih (fun x hx => h x (List.mem_cons_of_mem _ hx))
    simp [parse_hex_groups, hg, hgs]

/-- Texts of groups hold no empty piece. -/
theorem split_at_gap_no_gap (gs : List Nat) :
    split_at_gap (gs.map hex_group) = (gs.map hex_group, none) := by
  induction gs with
  | nil => rfl
  | cons g gs ih =>
    rw [List.map_cons]
    cases hg : hex_group g with
    | nil => exact absurd hg (hex_group_ne_nil g)
    | cons c cs => simp [split_at_gap, ih]

/-- The first empty piece after texts of groups is the gap. -/
theorem split_at_gap_gap (gs : List Nat) (rest : List (List Char)) :
    split_at_gap (gs.map hex_group ++ [] :: rest) = (gs.map hex_group, some rest) := by
  induction gs with
  | nil => rfl
  | cons g gs ih =>
    rw [List.map_cons, List.cons_append]
    cases hg : hex_group g with
    | nil => exact absurd hg (hex_group_ne_nil g)
    | cons c cs => simp [split_at_gap, ih]

/-- The groups counted by `zero_run` are zero groups at the head of the list. -/
theorem zero_run_spec (xs : List Nat) :
    zero_run xs ≤ xs.length ∧ xs.take (zero_run xs) = List.replicate (zero_run xs) 0 := by
  induction xs with
  | nil => simp [zero_run]
  | cons x xs ih =>
    cases x with
    | zero =>
      simp only [zero_run, List.length_cons, List.take_succ_cons, List.replicate_succ]
      exact ⟨by omega, by rw [ih.2]⟩
    | succ n => simp [zero_run]

/-- The run found by `longest_zero_run` lies inside the list and consists of zero
groups. -/
theorem longest_zero_run_spec (gs : List Nat) :
    (longest_zero_run gs).1 + (longest_zero_run gs).2 ≤ gs.length
      ∧ (gs.drop (longest_zero_run gs).1).take (longest_zero_run gs).2
          = List.replicate (longest_zero_run gs).2 0 := by
  unfold longest_zero_run
  have key : ∀ (ps : List Nat) (best : Nat × Nat),
      (best.1 + best.2 ≤ gs.length
        ∧ (gs.drop best.1).take best.2 = List.replicate best.2 0) →
      ((ps.foldl (fun best i =>
            if best.2 < zero_run (gs.drop i) then (i, zero_run (gs.drop i)) else best) best).1
        + (ps.foldl (fun best i =>
            if best.2 < zero_run (gs.drop i) then (i, zero_run (gs.drop i)) else best) best).2
          ≤ gs.length
        ∧ (gs.drop (ps.foldl (fun best i =>
            if best.2 < zero_run (gs.drop i) then (i, zero_run (gs.drop i)) else best) best).1).take
            (ps.foldl (fun best i =>
            if best.2 < zero_run (gs.drop i) then (i, zero_run (gs.drop i)) else best) best).2
          = List.replicate (ps.foldl (fun best i =>
            if best.2 < zero_run (gs.drop i) then (i, zero_run (gs.drop i)) else best) best).2 0) := by
    intro ps
    induction ps with
    | nil => intro best h; exact h
    | cons i ps ih =>
      intro best h
      rw [List.foldl_cons]
      apply ih
      split_ifs with hlt
      · have hz := zero_run_spec (gs.drop i)
        refine ⟨?_, hz.2⟩
        have hlen := hz.1
        rw [List.length_drop] at hlen
        simp only
        omega
      · exact h
  exact key _ (0, 0) (by simp)

/-- A list is what precedes a run of zeros, the zeros, and what follows them. -/
theorem take_replicate_drop (gs : List Nat) (s l : Nat)
    (h : (gs.drop s).take l = List.replicate l 0) :
    gs.take s ++ List.replicate l 0 ++ gs.drop (s + l) = gs := by
  rw [← h, List.append_assoc, ← List.drop_drop, List.take_append_drop, List.take_append_drop]

/-- Grouping `2 * n` bytes gives `n` 16-bit groups from which the bytes are
recovered. -/
theorem groups_of_bytes_spec (n : Nat) : ∀ b : List Nat, b.length = 2 * n →
    (∀ x ∈ b, x < 256) →
    bytes_of_groups (groups_of_bytes b) = b ∧ (groups_of_bytes b).length = n
      ∧ ∀ g ∈ groups_of_bytes b, g < 65536 := by
  induction n with
  | zero =>
    intro b hlen _
    have : b = [] := List.length_eq_zero.mp (by omega)
    subst this
    simp [groups_of_bytes, bytes_of_groups]
  | succ n ih =>
    intro b hlen hb
    match b, hlen, hb with
    | hi :: lo :: rest, hlen, hb =>
      have hrest : rest.length = 2 * n := by simp at hlen; omega
      obtain ⟨h1, h2, h3⟩ := ih rest hrest (fun x hx => hb x (by simp [hx]))
      have hhi : hi < 256 := hb hi (by simp)
      have hlo : lo < 256 := hb lo (by simp)
      refine ⟨?_, ?_, ?_⟩
      · simp only [groups_of_bytes, bytes_of_groups, h1]
        congr 1
        · omega
        · congr 1
          omega
      · simp [groups_of_bytes, h2]
      · intro g hg
        simp only [groups_of_bytes, List.mem_cons] at hg
        rcases hg with rfl | hg
        · omega
        · exact h3 g hg

/-- A text that starts with a digit passes the check of its start unchanged. -/
theorem strip_leading_colon_of_head (p : List Char) (rest : List (List Char)) (hp : p ≠ []) :
    strip_leading_colon (p :: rest) = some (p :: rest) := by
  cases p with
  | nil => exact absurd rfl hp
  | cons c cs => rfl

/-- Pieces that start with the text of a group pass the check of the start
unchanged. -/
theorem strip_leading_colon_map (gs : List Nat) (rest : List (List Char)) (h : gs ≠ []) :
    strip_leading_colon (gs.map hex_group ++ rest) = some (gs.map hex_group ++ rest) := by
  cases gs with
  | nil => exact absurd rfl h
  | cons g gs =>
    rw [List.map_cons, List.cons_append]
    exact strip_leading_colon_of_head _ _ (hex_group_ne_nil g)

/-- Pieces that end with the text of a group pass the check of the end
unchanged. -/
theorem strip_trailing_colon_map (gs : List Nat) (front : List (List Char)) (h : gs ≠ []) :
    strip_trailing_colon (front ++ gs.map hex_group) = some (front ++ gs.map hex_group) := by
  unfold strip_trailing_colon
  rw [List.reverse_append, ← List.map_reverse,
    strip_leading_colon_map gs.reverse front.reverse (by simpa using h)]
  simp

/-- Of two empty pieces at the end the last one is dropped. -/
theorem strip_trailing_colon_double (front : List (List Char)) :
    strip_trailing_colon (front ++ [[], []]) = some (front ++ [[]]) := by
  unfold strip_trailing_colon
  simp [strip_leading_colon]

/-- Groups around a gap are read back with the gap filled by zero groups. -/
theorem ip6_groups_of_pieces_gap (front back : List Nat)
    (hf : ∀ g ∈ front, g < 65536) (hb : ∀ g ∈ back, g < 65536)
    (hlen : front.length + back.length < 8) :
    ip6_groups_of_pieces (front.map hex_group ++ [] :: back.map hex_group)
      = some (front ++ List.replicate (8 - front.length - back.length) 0 ++ back) := by
  simp [ip6_groups_of_pieces, split_at_gap_gap, hlen, parse_hex_groups_map front hf,
    parse_hex_groups_map back hb]

/-- Eight groups without a gap are read back as they are. -/
theorem ip6_groups_of_pieces_full (gs : List Nat) (h : ∀ g ∈ gs, g < 65536)
    (hlen : gs.length = 8) :
    ip6_groups_of_pieces (gs.map hex_group) = some gs := by
  simp [ip6_groups_of_pieces, split_at_gap_no_gap, hlen, parse_hex_groups_map gs h]

/-- No piece of the text of an address holds a colon. -/
theorem colon_not_mem_pieces (gs : List Nat) : ∀ p ∈ ip6_text_pieces gs, ':' ∉ p := by
  have hmap : ∀ (l : List Nat), ∀ p ∈ l.map hex_group, ':' ∉ p := by
    intro l p hp
    obtain ⟨g, _, rfl⟩ := List.mem_map.mp hp
    exact colon_not_mem_hex_group g
  have hnil : ∀ p ∈ ([[]] : List (List Char)), ':' ∉ p := by
    intro p hp
    rw [List.mem_singleton] at hp
    subst hp
    simp
  intro p hp
  unfold ip6_text_pieces at hp
  split_ifs at hp
  · exact hmap _ p hp
  all_goals
    rw [List.mem_append, List.mem_append] at hp
    rcases hp with (hp | hp) | hp
    all_goals first | exact hmap _ p hp | exact hnil p hp

/-- The text of an address has at least one piece. -/
theorem ip6_text_pieces_ne_nil (gs : List Nat) (h : gs ≠ []) : ip6_text_pieces gs ≠ [] := by
  unfold ip6_text_pieces
  split_ifs <;> simp [h]

/-- The pieces of the text, with the start and the length of the longest zero
run named. -/
theorem ip6_text_pieces_eq (gs : List Nat) (s l : Nat)
    (hs : (longest_zero_run gs).1 = s) (hl : (longest_zero_run gs).2 = l) :
    ip6_text_pieces gs
      = if l < 2 then gs.map hex_group
        else (if s = 0 then [[]] else (gs.take s).map hex_group) ++ [[]]
          ++ (if gs.length ≤ s + l then [[]] else (gs.drop (s + l)).map hex_group) := by
  subst hs hl
  rfl

/-- The pieces of the text of eight 16-bit groups pass both end checks and are
read back as the same groups. -/
theorem ip6_pieces_round_trip (gs : List Nat) (hlen : gs.length = 8)
    (hg : ∀ g ∈ gs, g < 65536) :
    ∃ pieces, (strip_leading_colon (ip6_text_pieces gs)).bind strip_trailing_colon = some pieces
      ∧ ip6_groups_of_pieces pieces = some gs := by
  obtain ⟨hsl, hrun⟩ := longest_zero_run_spec gs
  have hgs := take_replicate_drop gs _ _ hrun
  have hne : gs ≠ [] := by
    intro h
    rw [h] at hlen
    simp at hlen
  rw [ip6_text_pieces_eq gs _ _ rfl rfl]
  generalize (longest_zero_run gs).1 = s at hsl hrun hgs ⊢
  generalize (longest_zero_run gs).2 = l at hsl hrun hgs ⊢
  have hpre : ∀ g ∈ gs.take s, g < 65536 := fun g h => hg g (List.mem_of_mem_take h)
  have hpost : ∀ g ∈ gs.drop (s + l), g < 65536 := fun g h => hg g (List.mem_of_mem_drop h)
  have hprelen : (gs.take s).length = s := by rw [List.length_take]; omega
  have hpostlen : (gs.drop (s + l)).length = 8 - (s + l) := by rw [List.length_drop, hlen]
  by_cases hl2 : l < 2
  · refine ⟨gs.map hex_group, ?_, ip6_groups_of_pieces_full gs hg hlen⟩
    have h1 := strip_leading_colon_map gs [] hne
    have h2 := strip_trailing_colon_map gs [] hne
    rw [List.append_nil] at h1
    rw [List.nil_append] at h2
    simp [hl2, h1, h2]
  · have hgap := ip6_groups_of_pieces_gap (gs.take s) (gs.drop (s + l)) hpre hpost
      (by rw [hprelen, hpostlen]; omega)
    have hzeros : 8 - (gs.take s).length - (gs.drop (s + l)).length = l := by
      rw [hprelen, hpostlen]; omega
    rw [hzeros, hgs] at hgap
    refine ⟨(gs.take s).map hex_group ++ [] :: (gs.drop (s + l)).map hex_group, ?_, hgap⟩
    rw [if_neg hl2]
    by_cases hs0 : s = 0
    · subst hs0
      rw [if_pos rfl]
      by_cases hend : gs.length ≤ 0 + l
      · have hd : gs.drop (0 + l) = [] := List.drop_eq_nil_of_le hend
        rw [if_pos hend, hd]
        simp [strip_leading_colon, strip_trailing_colon]
      · have hd : gs.drop (0 + l) ≠ [] := by
          intro h
          have := congrArg List.length h
          rw [hpostlen] at this
          simp at this
          omega
        have h2 := strip_trailing_colon_map (gs.drop (0 + l)) [[]] hd
        rw [if_neg hend]
        simp only [List.take_zero, List.map_nil, List.nil_append, List.singleton_append,
          strip_leading_colon, Option.some_bind]
        simpa using h2
    · have hp : gs.take s ≠ [] := by
        intro h
        have := congrArg List.length h
        rw [hprelen] at this
        simp at this
        exact hs0 this
      rw [if_neg hs0]
      by_cases hend : gs.length ≤ s + l
      · have hd : gs.drop (s + l) = [] := List.drop_eq_nil_of_le hend
        have h1 := strip_leading_colon_map (gs.take s) ([[]] ++ [[]]) hp
        have h2 := strip_trailing_colon_double ((gs.take s).map hex_group)
        rw [if_pos hend, hd, List.append_assoc, h1]
        simpa using h2
      · have hd : gs.drop (s + l) ≠ [] := by
          intro h
          have := congrArg List.length h
          rw [hpostlen] at this
          simp at this
          omega
        have h1 := strip_leading_colon_map (gs.take s)
          ([[]] ++ (gs.drop (s + l)).map hex_group) hp
        have h2 := strip_trailing_colon_map (gs.drop (s + l))
          ((gs.take s).map hex_group ++ [[]]) hd
        rw [if_neg hend, List.append_assoc, h1]
        simpa using h2

/-- Length of pieces of at most four characters joined by colons. -/
theorem intercalate_colon_length (ps : List (List Char)) (h : ∀ p ∈ ps, p.length ≤ 4)
    (hne : ps ≠ []) : ([':'].intercalate ps).length + 1 ≤ 5 * ps.length := by
  induction ps with
  | nil => exact absurd rfl hne
  | cons p rest ih =>
    have hp : p.length ≤ 4 := h p (List.mem_cons_self _ _)
    cases rest with
    | nil =>
      simp only [List.intercalate, List.intersperse_single, List.flatten, List.append_nil,
        List.length_cons, List.length_nil]
      omega
    | cons q rest =>
      have ih2 := ih (fun x hx => h x (List.mem_cons_of_mem _ hx)) (by simp)
      simp only [List.intercalate, List.intersperse_cons₂, List.flatten, List.length_append,
        List.length_cons, List.length_nil] at ih2 ⊢
      omega

/-- The text of eight groups has at most eight pieces of at most four
characters. -/
theorem ip6_text_pieces_length (gs : List Nat) (hlen : gs.length = 8) :
    (ip6_text_pieces gs).length ≤ 8 ∧ ∀ p ∈ ip6_text_pieces gs, p.length ≤ 4 := by
  obtain ⟨hsl, -⟩ := longest_zero_run_spec gs
  rw [ip6_text_pieces_eq gs _ _ rfl rfl]
  generalize (longest_zero_run gs).1 = s at hsl ⊢
  generalize (longest_zero_run gs).2 = l at hsl ⊢
  have hmap : ∀ (xs : List Nat), ∀ p ∈ xs.map hex_group, p.length ≤ 4 := by
    intro xs p hp
    obtain ⟨g, _, rfl⟩ := List.mem_map.mp hp
    exact hex_group_length_le g
  have hnil : ∀ p ∈ ([[]] : List (List Char)), p.length ≤ 4 := by
    intro p hp
    rw [List.mem_singleton] at hp
    subst hp
    simp
  constructor
  · split_ifs <;> simp [hlen] <;> omega
  · intro p hp
    split_ifs at hp
    · exact hmap _ p hp
    all_goals
      rw [List.mem_append, List.mem_append] at hp
      rcases hp with (hp | hp) | hp
      all_goals first | exact hmap _ p hp | exact hnil p hp

/-- An `in6_addr` holds sixteen bytes. -/
theorem in6_addr_bytes_spec (l : List Nat) :
    (in6_addr_bytes l).length = 16 ∧ ∀ x ∈ in6_addr_bytes l, x < 256 := by
  constructor
  · simp [in6_addr_bytes]
  · intro x hx
    simp only [in6_addr_bytes, List.mem_map] at hx
    obtain ⟨i, _, rfl⟩ := hx
    exact Nat.mod_lt _ (by decide)

/-- For every IPv6 address, `zts_inet_ntop` with a buffer of
`ZTS_IP_MAX_STR_LEN` bytes succeeds with a text of at most 39 characters, and
`zts_inet_pton` reads that text back as the same sixteen bytes. -/
theorem inet6_text_round_trip (b : List Nat) (hlen : b.length = 16) (hb : ∀ x ∈ b, x < 256) :
    zts_inet_ntop_inet6 b ZTS_IP_MAX_STR_LEN = some (ip6_text b)
      ∧ (ip6_text b).length ≤ 39
      ∧ zts_inet_pton_inet6 (ip6_text b) = (1, some b) := by
  obtain ⟨hbytes, hglen, hg⟩ := groups_of_bytes_spec 8 b hlen hb
  have hgne : groups_of_bytes b ≠ [] := by
    intro h
    rw [h] at hglen
    simp at hglen
  obtain ⟨hpl, hp4⟩ := ip6_text_pieces_length _ hglen
  have htext := intercalate_colon_length _ hp4 (ip6_text_pieces_ne_nil _ hgne)
  have hlen39 : (ip6_text b).length ≤ 39 := by
    unfold ip6_text
    omega
  refine ⟨?_, hlen39, ?_⟩
  · have : (ip6_text b).length + 1 ≤ ZTS_IP_MAX_STR_LEN := by
      simp only [ZTS_IP_MAX_STR_LEN, ZTS_INET6_ADDRSTRLEN]
      omega
    simp [zts_inet_ntop_inet6, this]
  · obtain ⟨pieces, hstrip, hgroups⟩ := ip6_pieces_round_trip _ hglen hg
    have hsplit : (ip6_text b).splitOn ':' = ip6_text_pieces (groups_of_bytes b) :=
      List.splitOn_intercalate _ ':' (colon_not_mem_pieces _) (ip6_text_pieces_ne_nil _ hgne)
    simp only [zts_inet_pton_inet6, hsplit, hstrip, hgroups, hbytes]

/-- C13: for every (network id, node id) the derived 6PLANE address and the
derived RFC4193 address have a text, the one `zts_inet_ntop` produces and the
`_str` call writes, which `zts_inet_pton` parses with return value 1 back to
the same sixteen bytes. -/
theorem zts_addr_compute_str_round_trip (d : AddressDeriver) (st : ServiceState)
    (net_id node_id : Nat) :
    (∃ bytes text,
        zts_addr_compute_6plane d st net_id node_id true
          = (ZTS_Error.ZTS_ERR_OK.toInt, some bytes)
        ∧ bytes.length = 16
        ∧ zts_inet_ntop_inet6 bytes ZTS_IP_MAX_STR_LEN = some text
        ∧ zts_addr_compute_6plane_str d st net_id node_id true ZTS_IP_MAX_STR_LEN
          = (ZTS_Error.ZTS_ERR_OK.toInt, st, some text)
        ∧ zts_inet_pton_inet6 text = (1, some bytes))
      ∧ (∃ bytes text,
        zts_addr_compute_rfc4193 d st net_id node_id true
          = (ZTS_Error.ZTS_ERR_OK.toInt, some bytes)
        ∧ bytes.length = 16
        ∧ zts_inet_ntop_inet6 bytes ZTS_IP_MAX_STR_LEN = some text
        ∧ zts_addr_compute_rfc4193_str d st net_id node_id true ZTS_IP_MAX_STR_LEN
          = (ZTS_Error.ZTS_ERR_OK.toInt, st, some text)
        ∧ zts_inet_pton_inet6 text = (1, some bytes)) := by
  have hcheck : ¬ (true = false ∨ (ZTS_IP_MAX_STR_LEN : Int) ≠ (ZTS_IP_MAX_STR_LEN : Int)) := by
    simp
  constructor
  · obtain ⟨hlen, hb⟩ := in6_addr_bytes_spec (d.sixplane (net_id % 2 ^ 64) (node_id % 2 ^ 64))
    obtain ⟨hntop, -, hpton⟩ := inet6_text_round_trip _ hlen hb
    have hc : zts_addr_compute_6plane d st net_id node_id true
        = (ZTS_Error.ZTS_ERR_OK.toInt,
            some (in6_addr_bytes (d.sixplane (net_id % 2 ^ 64) (node_id % 2 ^ 64)))) := rfl
    refine ⟨_, _, hc, hlen, hntop, ?_, hpton⟩
    unfold zts_addr_compute_6plane_str
    rw [if_neg hcheck, hc]
    simp only [hntop]
  · obtain ⟨hlen, hb⟩ := in6_addr_bytes_spec (d.rfc4193 (net_id % 2 ^ 64) (node_id % 2 ^ 64))
    obtain ⟨hntop, -, hpton⟩ := inet6_text_round_trip _ hlen hb
    have hc : zts_addr_compute_rfc4193 d st net_id node_id true
        = (ZTS_Error.ZTS_ERR_OK.toInt,
            some (in6_addr_bytes (d.rfc4193 (net_id % 2 ^ 64) (node_id % 2 ^ 64)))) := rfl
    refine ⟨_, _, hc, hlen, hntop, ?_, hpton⟩
    unfold zts_addr_compute_rfc4193_str
    rw [if_neg hcheck, hc]
    simp only [hntop]

/-- An `int` that passes the guard is a natural number below 1024, looked up
at byte `k / 8` with mask `2 ^ (k % 8)`. -/
theorem fd_safe_nat (n : Int) (hmin : INT_MIN ≤ n) (h : ZTS_FDSETSAFE n = true) :
    ∃ k : Nat, n = (k : Int) ∧ k < 1024 ∧ fd_bits_index n = ((k / 8 : Nat) : Int)
      ∧ fd_bits_mask n = 2 ^ (k % 8) := by
  have h := fd_safe_range n hmin h
  refine ⟨n.toNat, (Int.toNat_of_nonneg h.1).symm, by omega, ?_, ?_⟩
  · simp only [fd_bits_index, LWIP_SOCKET_OFFSET, sub_zero]
    rw [Int.tdiv_eq_ediv h.1 (by decide)]
    omega
  · simp only [fd_bits_mask, LWIP_SOCKET_OFFSET, sub_zero, Nat.one_shiftLeft]
    congr 1
    omega

/-- A descriptor in 0..1023 passes the guard. -/
theorem fd_safe_of_range (k : Nat) (hk : k < 1024) : ZTS_FDSETSAFE (k : Int) = true := by
  simp only [ZTS_FDSETSAFE, LWIP_SOCKET_OFFSET, MEMP_NUM_NETCONN, int_cast, Bool.and_eq_true,
    decide_eq_true_eq, sub_zero]
  omega

/-- On the values of the type `int` the conversion to `int` is the
identity. -/
theorem int_cast_of_int (n : Int) (hmin : INT_MIN ≤ n) (hmax : n ≤ INT_MAX) :
    int_cast n = n := by
  simp only [INT_MIN] at hmin
  simp only [INT_MAX] at hmax
  simp only [int_cast]
  omega

/-- A natural number is not below `INT_MIN`. -/
theorem int_min_le_nat (k : Nat) : INT_MIN ≤ (k : Int) := by
  simp only [INT_MIN]
  omega

/-- An `int` outside 0..1023 fails the guard. -/
theorem fd_unsafe_of_range (n : Int) (hmin : INT_MIN ≤ n)
    (h : n < 0 ∨ 1024 ≤ n) : ZTS_FDSETSAFE n = false := by
  simp only [ZTS_FDSETSAFE, LWIP_SOCKET_OFFSET, MEMP_NUM_NETCONN, int_cast, sub_zero,
    Bool.and_eq_false_iff, decide_eq_false_iff_not]
  simp only [INT_MIN] at hmin
  omega

/-- The value of `ZTS_FD_ISSET` for a descriptor in 0..1023. -/
theorem fd_isset_eq (p : zts_fd_set) (k : Nat) (hk : k < 1024) (b : Nat)
    (hb : p.fd_bits[k / 8]? = some b) :
    ZTS_FD_ISSET (k : Int) p = some (b &&& 2 ^ (k % 8)) := by
  obtain ⟨k', hk', -, hidx, hmask⟩ :=
    fd_safe_nat (k : Int) (int_min_le_nat k) (fd_safe_of_range k hk)
  have hkk : k' = k := by omega
  subst hkk
  have hnn : (0 : Int) ≤ ((k' / 8 : Nat) : Int) := Int.ofNat_nonneg _
  simp only [ZTS_FD_ISSET, ZTS_FDSETSAFEGET, fd_safe_of_range k' hk, fd_bits_read, hidx, hmask,
    if_true, if_pos hnn, Int.toNat_ofNat, hb, Option.map_some']

/-- The effect of `ZTS_FD_SET` for a descriptor in 0..1023. -/
theorem fd_set_eq (p : zts_fd_set) (k : Nat) (hk : k < 1024) (b : Nat)
    (hb : p.fd_bits[k / 8]? = some b) :
    ZTS_FD_SET (k : Int) p
      = some ⟨p.fd_bits.set (k / 8) ((b ||| 2 ^ (k % 8)) % 256)⟩ := by
  obtain ⟨k', hk', -, hidx, hmask⟩ :=
    fd_safe_nat (k : Int) (int_min_le_nat k) (fd_safe_of_range k hk)
  have hkk : k' = k := by omega
  subst hkk
  have hlt : k' / 8 < p.fd_bits.length := by
    by_contra hge
    rw [List.getElem?_eq_none (by omega)] at hb
    exact absurd hb (by simp)
  have hnn : (0 : Int) ≤ ((k' / 8 : Nat) : Int) := Int.ofNat_nonneg _
  simp only [ZTS_FD_SET, ZTS_FDSETSAFESET, fd_safe_of_range k' hk, fd_bits_read, fd_bits_write,
    hidx, hmask, if_true, if_pos hnn, Int.toNat_ofNat, hb, Option.some_bind, hnn, hlt, and_self]

/-- The effect of `ZTS_FD_CLR` for a descriptor in 0..1023. -/
theorem fd_clr_eq (p : zts_fd_set) (k : Nat) (hk : k < 1024) (b : Nat)
    (hb : p.fd_bits[k / 8]? = some b) :
    ZTS_FD_CLR (k : Int) p
      = some ⟨p.fd_bits.set (k / 8) ((b &&& int_complement (2 ^ (k % 8))) % 256)⟩ := by
  obtain ⟨k', hk', -, hidx, hmask⟩ :=
    fd_safe_nat (k : Int) (int_min_le_nat k) (fd_safe_of_range k hk)
  have hkk : k' = k := by omega
  subst hkk
  have hlt : k' / 8 < p.fd_bits.length := by
    by_contra hge
    rw [List.getElem?_eq_none (by omega)] at hb
    exact absurd hb (by simp)
  have hnn : (0 : Int) ≤ ((k' / 8 : Nat) : Int) := Int.ofNat_nonneg _
  simp only [ZTS_FD_CLR, ZTS_FDSETSAFESET, fd_safe_of_range k' hk, fd_bits_read, fd_bits_write,
    hidx, hmask, if_true, if_pos hnn, Int.toNat_ofNat, hb, Option.some_bind, hnn, hlt, and_self]

/-- A masked byte is nonzero exactly when the bit is set. -/
theorem and_two_pow_ne_zero (b i : Nat) : b &&& 2 ^ i ≠ 0 ↔ b.testBit i = true := by
  rw [Nat.and_two_pow]
  cases h : b.testBit i
  · simp
  · simp

/-- Bits of the byte stored by `ZTS_FD_SET`. -/
theorem testBit_set_byte (b i j : Nat) (hj : j < 8) :
    ((b ||| 2 ^ i) % 256).testBit j = (b.testBit j || decide (i = j)) := by
  have h256 : (256 : Nat) = 2 ^ 8 := by norm_num
  rw [h256, Nat.testBit_mod_two_pow, Nat.testBit_or, Nat.testBit_two_pow]
  simp [hj]

/-- Bits of the byte stored by `ZTS_FD_CLR`. -/
theorem testBit_clr_byte (b i j : Nat) (hj : j < 8) :
    ((b &&& int_complement (2 ^ i)) % 256).testBit j = (b.testBit j && !decide (i = j)) := by
  have h256 : (256 : Nat) = 2 ^ 8 := by norm_num
  have hff : (0xffffffff : Nat) = 2 ^ 32 - 1 := by norm_num
  rw [h256, Nat.testBit_mod_two_pow, Nat.testBit_and, int_complement, Nat.testBit_xor,
    Nat.testBit_two_pow, hff, Nat.testBit_two_pow_sub_one]
  have : j < 32 := by omega
  simp [hj, this]

/-- Two descriptors share byte and bit exactly when they are equal. -/
theorem fd_same_bit_iff (k m : Nat) : (k / 8 = m / 8 ∧ k % 8 = m % 8) ↔ m = k := by
  omega

/-- Storing a byte in a well-formed set gives a well-formed set. -/
theorem fd_wf_set (p : zts_fd_set) (hp : p.wf) (i v : Nat) :
    zts_fd_set.wf ⟨p.fd_bits.set i (v % 256)⟩ := by
  refine ⟨by rw [List.length_set]; exact hp.1, ?_⟩
  intro b hb
  rcases List.mem_or_eq_of_mem_set hb with h | h
  · exact hp.2 b h
  · rw [h]; exact Nat.mod_lt _ (by decide)

/-- C21: for descriptors `n`, `m` in 0..1023, after `ZTS_FD_SET(n, p)` the
value of `ZTS_FD_ISSET(m, p)` is nonzero exactly when `m = n` or it was
nonzero before. -/
theorem zts_fd_set_inserts (p : zts_fd_set) (n m : Int) (hp : p.wf)
    (hn0 : 0 ≤ n) (hn : n < 1024) (hm0 : 0 ≤ m) (hm : m < 1024) :
    ∃ q v v0, ZTS_FD_SET n p = some q ∧ q.wf
      ∧ ZTS_FD_ISSET m q = some v ∧ ZTS_FD_ISSET m p = some v0
      ∧ (v ≠ 0 ↔ (m = n ∨ v0 ≠ 0)) := by
  obtain ⟨k, rfl⟩ := Int.eq_ofNat_of_zero_le hn0
  obtain ⟨j, rfl⟩ := Int.eq_ofNat_of_zero_le hm0
  have hk : k < 1024 := by omega
  have hj : j < 1024 := by omega
  have hlen : p.fd_bits.length = 128 := hp.1
  have hk8 : k / 8 < p.fd_bits.length := by omega
  have hj8 : j / 8 < p.fd_bits.length := by omega
  have hbk : p.fd_bits[k / 8]? = some p.fd_bits[k / 8] := List.getElem?_eq_getElem hk8
  have hbj : p.fd_bits[j / 8]? = some p.fd_bits[j / 8] := List.getElem?_eq_getElem hj8
  have hj7 : j % 8 < 8 := Nat.mod_lt _ (by decide)
  by_cases hsame : k / 8 = j / 8
  · have hq : (p.fd_bits.set (k / 8) ((p.fd_bits[k / 8] ||| 2 ^ (k % 8)) % 256))[j / 8]?
        = some ((p.fd_bits[k / 8] ||| 2 ^ (k % 8)) % 256) := by
      rw [List.getElem?_set, if_pos hsame, if_pos hk8]
    refine ⟨_, _, _, fd_set_eq p k hk _ hbk, fd_wf_set p hp _ _,
      fd_isset_eq _ j hj _ hq, fd_isset_eq p j hj _ hbj, ?_⟩
    rw [and_two_pow_ne_zero, and_two_pow_ne_zero, testBit_set_byte _ _ _ hj7]
    have hbytes : p.fd_bits[k / 8] = p.fd_bits[j / 8] := by
      simp only [hsame]
    rw [hbytes]
    have hiff := fd_same_bit_iff k j
    simp only [Bool.or_eq_true, decide_eq_true_eq, Nat.cast_inj]
    constructor
    · rintro (h | h)
      · exact Or.inr h
      · exact Or.inl (hiff.mp ⟨hsame, h⟩)
    · rintro (h | h)
      · exact Or.inr (hiff.mpr h).2
      · exact Or.inl h
  · have hq : (p.fd_bits.set (k / 8) ((p.fd_bits[k / 8] ||| 2 ^ (k % 8)) % 256))[j / 8]?
        = some p.fd_bits[j / 8] := by
      rw [List.getElem?_set, if_neg hsame, hbj]
    refine ⟨_, _, _, fd_set_eq p k hk _ hbk, fd_wf_set p hp _ _,
      fd_isset_eq _ j hj _ hq, fd_isset_eq p j hj _ hbj, ?_⟩
    have hne : ¬ ((j : Int) = (k : Int)) := by
      intro h
      have : j = k := by exact_mod_cast h
      exact hsame (by rw [this])
    simp [hne]

/-- C22: for descriptors `n`, `m` in 0..1023, after `ZTS_FD_CLR(n, p)` the
value of `ZTS_FD_ISSET(m, p)` is nonzero exactly when `m ≠ n` and it was
nonzero before. -/
theorem zts_fd_clr_deletes (p : zts_fd_set) (n m : Int) (hp : p.wf)
    (hn0 : 0 ≤ n) (hn : n < 1024) (hm0 : 0 ≤ m) (hm : m < 1024) :
    ∃ q v v0, ZTS_FD_CLR n p = some q ∧ q.wf
      ∧ ZTS_FD_ISSET m q = some v ∧ ZTS_FD_ISSET m p = some v0
      ∧ (v ≠ 0 ↔ (m ≠ n ∧ v0 ≠ 0)) := by
  obtain ⟨k, rfl⟩ := Int.eq_ofNat_of_zero_le hn0
  obtain ⟨j, rfl⟩ := Int.eq_ofNat_of_zero_le hm0
  have hk : k < 1024 := by omega
  have hj : j < 1024 := by omega
  have hlen : p.fd_bits.length = 128 := hp.1
  have hk8 : k / 8 < p.fd_bits.length := by omega
  have hj8 : j / 8 < p.fd_bits.length := by omega
  have hbk : p.fd_bits[k / 8]? = some p.fd_bits[k / 8] := List.getElem?_eq_getElem hk8
  have hbj : p.fd_bits[j / 8]? = some p.fd_bits[j / 8] := List.getElem?_eq_getElem hj8
  have hj7 : j % 8 < 8 := Nat.mod_lt _ (by decide)
  by_cases hsame : k / 8 = j / 8
  · have hq : (p.fd_bits.set (k / 8)
          ((p.fd_bits[k / 8] &&& int_complement (2 ^ (k % 8))) % 256))[j / 8]?
        = some ((p.fd_bits[k / 8] &&& int_complement (2 ^ (k % 8))) % 256) := by
      rw [List.getElem?_set, if_pos hsame, if_pos hk8]
    refine ⟨_, _, _, fd_clr_eq p k hk _ hbk, fd_wf_set p hp _ _,
      fd_isset_eq _ j hj _ hq, fd_isset_eq p j hj _ hbj, ?_⟩
    rw [and_two_pow_ne_zero, and_two_pow_ne_zero, testBit_clr_byte _ _ _ hj7]
    have hbytes : p.fd_bits[k / 8] = p.fd_bits[j / 8] := by
      simp only [hsame]
    rw [hbytes]
    have hiff := fd_same_bit_iff k j
    simp only [Bool.and_eq_true, Bool.not_eq_true', decide_eq_false_iff_not, ne_eq,
      Nat.cast_inj]
    constructor
    · rintro ⟨h1, h2⟩
      exact ⟨fun h => h2 (hiff.mpr h).2, h1⟩
    · rintro ⟨h1, h2⟩
      exact ⟨h2, fun h => h1 (hiff.mp ⟨hsame, h⟩)⟩
  · have hq : (p.fd_bits.set (k / 8)
          ((p.fd_bits[k / 8] &&& int_complement (2 ^ (k % 8))) % 256))[j / 8]?
        = some p.fd_bits[j / 8] := by
      rw [List.getElem?_set, if_neg hsame, hbj]
    refine ⟨_, _, _, fd_clr_eq p k hk _ hbk, fd_wf_set p hp _ _,
      fd_isset_eq _ j hj _ hq, fd_isset_eq p j hj _ hbj, ?_⟩
    have hne : ¬ ((j : Int) = (k : Int)) := by
      intro h
      have : j = k := by exact_mod_cast h
      exact hsame (by rw [this])
    simp [hne]

/-- C23: for every `int` `n` (every `n` not below `INT_MIN`) with `n < 0` or
`n ≥ 1024` and any set `p`, `ZTS_FD_SET(n, p)` and `ZTS_FD_CLR(n, p)` leave `p`
as it is, and `ZTS_FD_ISSET(n, p)` is 0; the guarded code, which holds every
access to `fd_bits`, is not run at all. -/
theorem zts_fd_out_of_range (p : zts_fd_set) (n : Int)
    (hmin : INT_MIN ≤ n) (h : n < 0 ∨ 1024 ≤ n) :
    ZTS_FD_SET n p = some p ∧ ZTS_FD_CLR n p = some p ∧ ZTS_FD_ISSET n p = some 0
      ∧ (∀ code, ZTS_FDSETSAFESET n code p = some p)
      ∧ (∀ code, ZTS_FDSETSAFEGET n code p = some 0) := by
  have hs := fd_unsafe_of_range n hmin h
  simp [ZTS_FD_SET, ZTS_FD_CLR, ZTS_FD_ISSET, ZTS_FDSETSAFESET, ZTS_FDSETSAFEGET, hs]

/-- Witness for C21: descriptor 9 is inserted into the empty set. -/
theorem zts_fd_set_inserts_witness :
    ∃ q v v0, ZTS_FD_SET 9 (ZTS_FD_ZERO ⟨[]⟩) = some q ∧ q.wf
      ∧ ZTS_FD_ISSET 9 q = some v ∧ ZTS_FD_ISSET 9 (ZTS_FD_ZERO ⟨[]⟩) = some v0
      ∧ (v ≠ 0 ↔ ((9 : Int) = 9 ∨ v0 ≠ 0)) :=
  zts_fd_set_inserts (ZTS_FD_ZERO ⟨[]⟩) 9 9 (by decide) (by decide) (by decide) (by decide)
    (by decide)

/-- Witness for C22: descriptor 9 is deleted from the set that holds 9 and
10. -/
theorem zts_fd_clr_deletes_witness :
    ∃ q v v0, ZTS_FD_CLR 9 ⟨[0, 6] ++ List.replicate 126 0⟩ = some q ∧ q.wf
      ∧ ZTS_FD_ISSET 10 q = some v
      ∧ ZTS_FD_ISSET 10 ⟨[0, 6] ++ List.replicate 126 0⟩ = some v0
      ∧ (v ≠ 0 ↔ ((10 : Int) ≠ 9 ∧ v0 ≠ 0)) :=
  zts_fd_clr_deletes ⟨[0, 6] ++ List.replicate 126 0⟩ 9 10 (by decide) (by decide) (by decide)
    (by decide) (by decide)

/-- Witness for C23 at descriptor 1024 and the set that holds every
descriptor. -/
theorem zts_fd_out_of_range_witness :
    ZTS_FD_CLR 1024 ⟨List.replicate 128 255⟩ = some ⟨List.replicate 128 255⟩
      ∧ ZTS_FD_ISSET 1024 ⟨List.replicate 128 255⟩ = some 0 :=
  ⟨(zts_fd_out_of_range ⟨List.replicate 128 255⟩ 1024 (by decide)
      (Or.inr (by decide))).2.1,
   (zts_fd_out_of_range ⟨List.replicate 128 255⟩ 1024 (by decide)
      (Or.inr (by decide))).2.2.1⟩

/-- C24: after `ZTS_FD_ZERO(p)` all 128 bytes of `fd_bits` are 0 and
`ZTS_FD_ISSET(n, p)` is 0 for every `n` of type `int` (every `n` not below
`INT_MIN`). -/
theorem zts_fd_zero_empty (p : zts_fd_set) (n : Int) (hmin : INT_MIN ≤ n) :
    (ZTS_FD_ZERO p).fd_bits.length = 128
      ∧ (∀ i, i < 128 → (ZTS_FD_ZERO p).fd_bits[i]? = some 0)
      ∧ (∀ b ∈ (ZTS_FD_ZERO p).fd_bits, b = 0)
      ∧ (ZTS_FD_ZERO p).wf
      ∧ ZTS_FD_ISSET n (ZTS_FD_ZERO p) = some 0 := by
  have hbits : (ZTS_FD_ZERO p).fd_bits = List.replicate 128 0 := rfl
  have hget : ∀ i, i < 128 → (ZTS_FD_ZERO p).fd_bits[i]? = some 0 := by
    intro i hi
    rw [hbits, List.getElem?_replicate, if_pos hi]
  refine ⟨by rw [hbits, List.length_replicate], hget, ?_, ?_, ?_⟩
  · intro b hb
    rw [hbits] at hb
    exact List.eq_of_mem_replicate hb
  · refine ⟨by rw [hbits]; rfl, ?_⟩
    intro b hb
    rw [hbits] at hb
    rw [List.eq_of_mem_replicate hb]
    decide
  · by_cases hs : ZTS_FDSETSAFE n = true
    · obtain ⟨k, rfl, hk, -, -⟩ := fd_safe_nat n hmin hs
      rw [fd_isset_eq _ k hk 0 (hget _ (by omega))]
      simp
    · simp [ZTS_FD_ISSET, ZTS_FDSETSAFEGET, hs]

/-- Witness for C24 at the least `int` and a set that held every
descriptor. -/
theorem zts_fd_zero_empty_witness :
    (∀ b ∈ (ZTS_FD_ZERO ⟨List.replicate 128 255⟩).fd_bits, b = 0)
      ∧ ZTS_FD_ISSET INT_MIN (ZTS_FD_ZERO ⟨List.replicate 128 255⟩) = some 0 :=
  ⟨(zts_fd_zero_empty ⟨List.replicate 128 255⟩ INT_MIN (by decide)).2.2.1,
   (zts_fd_zero_empty ⟨List.replicate 128 255⟩ INT_MIN (by decide)).2.2.2.2⟩

/-- C25: whatever alignment the platform gives `uint16_t` and `uint32_t`
(a divisor of the size, 2 and 4 when natural), no record gets padding:
`sizeof(zts_sockaddr_storage) = 1+1+2+12+12 = 28`,
`sizeof(zts_sockaddr_in6) = 1+1+2+4+16+4 = 28`,
`sizeof(zts_sockaddr_in) = 1+1+2+4+8 = 16` and
`sizeof(zts_sockaddr) = 1+1+14 = 16`, so `zts_sockaddr_storage` is at least as
large as each of the other three. -/
theorem zts_sockaddr_sizes (abi : c_abi) (h16 : abi.align_uint16 ∣ 2)
    (h32 : abi.align_uint32 ∣ 4) :
    (c_sizeof_struct (zts_sockaddr_storage abi) = 1 + 1 + 2 + 12 + 12
        ∧ c_sizeof_struct (zts_sockaddr_storage abi) = c_sum_of_sizes (zts_sockaddr_storage abi)
        ∧ c_sizeof_struct (zts_sockaddr_storage abi) = 28)
      ∧ (c_sizeof_struct (zts_sockaddr_in6 abi) = 1 + 1 + 2 + 4 + 16 + 4
        ∧ c_sizeof_struct (zts_sockaddr_in6 abi) = c_sum_of_sizes (zts_sockaddr_in6 abi)
        ∧ c_sizeof_struct (zts_sockaddr_in6 abi) = 28)
      ∧ (c_sizeof_struct (zts_sockaddr_in abi) = 1 + 1 + 2 + 4 + 8
        ∧ c_sizeof_struct (zts_sockaddr_in abi) = c_sum_of_sizes (zts_sockaddr_in abi)
        ∧ c_sizeof_struct (zts_sockaddr_in abi) = 16)
      ∧ (c_sizeof_struct zts_sockaddr = 1 + 1 + 14
        ∧ c_sizeof_struct zts_sockaddr = c_sum_of_sizes zts_sockaddr
        ∧ c_sizeof_struct zts_sockaddr = 16)
      ∧ c_sizeof_struct (zts_sockaddr_in6 abi) ≤ c_sizeof_struct (zts_sockaddr_storage abi)
      ∧ c_sizeof_struct (zts_sockaddr_in abi) ≤ c_sizeof_struct (zts_sockaddr_storage abi)
      ∧ c_sizeof_struct zts_sockaddr ≤ c_sizeof_struct (zts_sockaddr_storage abi) := by
  obtain ⟨a16, a32⟩ := abi
  simp only at h16 h32
  have h16le : a16 ≤ 2 := Nat.le_of_dvd (by decide) h16
  have h32le : a32 ≤ 4 := Nat.le_of_dvd (by decide) h32
  have h16pos : 0 < a16 := Nat.pos_of_dvd_of_pos h16 (by decide)
  have h32pos : 0 < a32 := Nat.pos_of_dvd_of_pos h32 (by decide)
  have h3 : a32 ≠ 3 := by
    intro h
    rw [h] at h32
    exact absurd h32 (by decide)
  interval_cases a16 <;> interval_cases a32 <;> first | exact absurd rfl h3 | decide

/-- Witness for C25 with the natural alignments 2 and 4. -/
theorem zts_sockaddr_sizes_witness :
    c_sizeof_struct (zts_sockaddr_storage ⟨2, 4⟩) = 28
      ∧ c_sizeof_struct (zts_sockaddr_in6 ⟨2, 4⟩) = 28
      ∧ c_sizeof_struct (zts_sockaddr_in ⟨2, 4⟩) = 16
      ∧ c_sizeof_struct zts_sockaddr = 16 :=
  ⟨(zts_sockaddr_sizes ⟨2, 4⟩ (by decide) (by decide)).1.2.2,
   (zts_sockaddr_sizes ⟨2, 4⟩ (by decide) (by decide)).2.1.2.2,
   (zts_sockaddr_sizes ⟨2, 4⟩ (by decide) (by decide)).2.2.1.2.2,
   (zts_sockaddr_sizes ⟨2, 4⟩ (by decide) (by decide)).2.2.2.1.2.2⟩

/-- The size, group and number fields of an ioctl command value do not
overlap, so joining them with `|` adds them. -/
theorem ioc_fields_sum (x y s : Nat) (hx : x < 256) (hy : y < 256) :
    ((s &&& ZTS_IOCPARM_MASK) <<< 16) ||| ((x <<< 8) ||| y)
      = s % 128 * 65536 + x * 256 + y := by
  have hmask : s &&& ZTS_IOCPARM_MASK = s % 128 := by
    have := Nat.and_pow_two_sub_one_eq_mod s 7
    simpa [ZTS_IOCPARM_MASK] using this
  have h1 : (x <<< 8) ||| y = x * 256 + y := by
    have := Nat.mul_add_lt_is_or (i := 8) (b := y) (by omega) x
    rw [Nat.shiftLeft_eq, ← Nat.mul_comm (2 ^ 8) x, ← this]
  have h2 : ((s % 128) <<< 16) ||| (x * 256 + y) = s % 128 * 65536 + (x * 256 + y) := by
    have := Nat.mul_add_lt_is_or (i := 16) (b := x * 256 + y) (by omega) (s % 128)
    rw [Nat.shiftLeft_eq, ← Nat.mul_comm (2 ^ 16) (s % 128), ← this]
  rw [hmask, h1, h2]
  omega

/-- A direction bit above the fields is added by `|`. -/
theorem ioc_dir_sum (e r : Nat) (hr : r < 2 ^ e) : 2 ^ e ||| r = 2 ^ e + r := by
  have := Nat.mul_add_lt_is_or (i := e) (b := r) hr 1
  simpa using this.symm

/-- Closed form of `ZTS_IOR`. -/
theorem ZTS_IOR_eq (x y s : Nat) (hx : x < 256) (hy : y < 256) :
    ZTS_IOR x y s = 0x40000000 + s % 128 * 65536 + x * 256 + y := by
  have hs : s % 128 < 128 := Nat.mod_lt _ (by decide)
  unfold ZTS_IOR
  rw [Nat.or_assoc, Nat.or_assoc, ioc_fields_sum x y s hx hy]
  have := ioc_dir_sum 30 (s % 128 * 65536 + x * 256 + y) (by norm_num; omega)
  simp only [ZTS_IOC_OUT]
  norm_num at this ⊢
  omega

/-- Closed form of `ZTS_IOW`. -/
theorem ZTS_IOW_eq (x y s : Nat) (hx : x < 256) (hy : y < 256) :
    ZTS_IOW x y s = 0x80000000 + s % 128 * 65536 + x * 256 + y := by
  have hs : s % 128 < 128 := Nat.mod_lt _ (by decide)
  unfold ZTS_IOW
  rw [Nat.or_assoc, Nat.or_assoc, ioc_fields_sum x y s hx hy]
  have := ioc_dir_sum 31 (s % 128 * 65536 + x * 256 + y) (by norm_num; omega)
  simp only [ZTS_IOC_IN]
  norm_num at this ⊢
  omega

/-- Closed form of `ZTS_IO`. -/
theorem ZTS_IO_eq (x y : Nat) (hx : x < 256) (hy : y < 256) :
    ZTS_IO x y = 0x20000000 + x * 256 + y := by
  unfold ZTS_IO
  have h1 : (x <<< 8) ||| y = x * 256 + y := by
    have := Nat.mul_add_lt_is_or (i := 8) (b := y) (by omega) x
    rw [Nat.shiftLeft_eq, ← Nat.mul_comm (2 ^ 8) x, ← this]
  rw [Nat.or_assoc, h1]
  have := ioc_dir_sum 29 (x * 256 + y) (by norm_num; omega)
  simp only [ZTS_IOC_VOID]
  norm_num at this ⊢
  omega

/-- Bits of the mask of the direction bits, seen from bit 29. -/
theorem testBit_seven (k : Nat) : Nat.testBit 7 k = decide (k < 3) := by
  have := Nat.testBit_two_pow_sub_one 3 k
  simpa using this

/-- The three direction bits of a value: bits 29 to 31 of `2 ^ 29 * d + r`
with `r` below `2 ^ 29` are those of `d`. -/
theorem ioc_dir_bits (d r : Nat) (hd : d < 8) (hr : r < 2 ^ 29) :
    (2 ^ 29 * d + r) &&& 0xe0000000 = 2 ^ 29 * d := by
  have hM : (0xe0000000 : Nat) = 7 <<< 29 := by decide
  have hD : 2 ^ 29 * d = d <<< 29 := by rw [Nat.shiftLeft_eq, Nat.mul_comm]
  rw [Nat.mul_add_lt_is_or hr d, Nat.and_distrib_right, hM, hD]
  have hzero : r &&& (7 <<< 29) = 0 := by
    apply Nat.eq_of_testBit_eq
    intro j
    rw [Nat.testBit_and, Nat.testBit_shiftLeft, Nat.zero_testBit]
    by_cases h : 29 ≤ j
    · have hlt : r < 2 ^ j := lt_of_lt_of_le hr (Nat.pow_le_pow_right (by decide) h)
      rw [Nat.testBit_lt_two_pow hlt]
      rfl
    · have hdec : decide (j ≥ 29) = false := decide_eq_false h
      rw [hdec]
      simp only [Bool.false_and, Bool.and_false]
  have hkeep : (d <<< 29) &&& (7 <<< 29) = d <<< 29 := by
    apply Nat.eq_of_testBit_eq
    intro j
    rw [Nat.testBit_and, Nat.testBit_shiftLeft, Nat.testBit_shiftLeft, testBit_seven]
    by_cases hk : j - 29 < 3
    · rw [decide_eq_true hk]
      cases decide (j ≥ 29) <;> cases d.testBit (j - 29) <;> rfl
    · have hlt : d < 2 ^ (j - 29) :=
        lt_of_lt_of_le (by omega : d < 2 ^ 3) (Nat.pow_le_pow_right (by decide) (by omega))
      rw [Nat.testBit_lt_two_pow hlt]
      simp only [Bool.and_false, Bool.false_and]
  rw [hzero, hkeep, Nat.or_zero]

/-- C26: for group `x` and number `y` in 0..255 and any parameter size `s`,
`v = ZTS_IOR(x, y, t)` with `sizeof(t) = s` has `v & 0xff = y`,
`(v >> 8) & 0xff = x`, `(v >> 16) & 0x7f = s mod 128` and
`v & 0xe0000000 = ZTS_IOC_OUT`; likewise `ZTS_IOW` with `ZTS_IOC_IN`, and
`ZTS_IO` with `ZTS_IOC_VOID` and size field 0. Hence equal values have equal
direction, size mod 128, group and number. -/
theorem zts_ioc_decodable (x y s x2 y2 s2 : Nat) (hx : x < 256) (hy : y < 256)
    (hx2 : x2 < 256) (hy2 : y2 < 256) :
    ( ZTS_IOR x y s &&& 0xff = y ∧ ( ZTS_IOR x y s >>> 8) &&& 0xff = x
        ∧ ( ZTS_IOR x y s >>> 16) &&& 0x7f = s % 128
        ∧ ZTS_IOR x y s &&& 0xe0000000 = ZTS_IOC_OUT)
      ∧ ( ZTS_IOW x y s &&& 0xff = y ∧ ( ZTS_IOW x y s >>> 8) &&& 0xff = x
        ∧ ( ZTS_IOW x y s >>> 16) &&& 0x7f = s % 128
        ∧ ZTS_IOW x y s &&& 0xe0000000 = ZTS_IOC_IN)
      ∧ ( ZTS_IO x y &&& 0xff = y ∧ ( ZTS_IO x y >>> 8) &&& 0xff = x
        ∧ ( ZTS_IO x y >>> 16) &&& 0x7f = 0
        ∧ ZTS_IO x y &&& 0xe0000000 = ZTS_IOC_VOID)
      ∧ ( ZTS_IOR x y s = ZTS_IOR x2 y2 s2 → s % 128 = s2 % 128 ∧ x = x2 ∧ y = y2)
      ∧ ( ZTS_IOW x y s = ZTS_IOW x2 y2 s2 → s % 128 = s2 % 128 ∧ x = x2 ∧ y = y2)
      ∧ ( ZTS_IO x y = ZTS_IO x2 y2 → x = x2 ∧ y = y2)
      ∧ ZTS_IOR x y s ≠ ZTS_IOW x2 y2 s2
      ∧ ZTS_IOR x y s ≠ ZTS_IO x2 y2
      ∧ ZTS_IOW x y s ≠ ZTS_IO x2 y2 := by
  have hs : s % 128 < 128 := Nat.mod_lt _ (by decide)
  have hs2 : s2 % 128 < 128 := Nat.mod_lt _ (by decide)
  have hff : ∀ v : Nat, v &&& 0xff = v % 256 := fun v => Nat.and_pow_two_sub_one_eq_mod v 8
  have h7f : ∀ v : Nat, v &&& 0x7f = v % 128 := fun v => Nat.and_pow_two_sub_one_eq_mod v 7
  have hdr := ioc_dir_bits 2 (s % 128 * 65536 + x * 256 + y) (by decide) (by norm_num; omega)
  have hdw := ioc_dir_bits 4 (s % 128 * 65536 + x * 256 + y) (by decide) (by norm_num; omega)
  have hdv := ioc_dir_bits 1 (x * 256 + y) (by decide) (by norm_num; omega)
  have hr : ZTS_IOR x y s &&& 0xe0000000 = ZTS_IOC_OUT := by
    rw [ZTS_IOR_eq x y s hx hy]
    have e : 0x40000000 + s % 128 * 65536 + x * 256 + y
        = 2 ^ 29 * 2 + (s % 128 * 65536 + x * 256 + y) := by norm_num; omega
    rw [e, hdr]
    rfl
  have hw : ZTS_IOW x y s &&& 0xe0000000 = ZTS_IOC_IN := by
    rw [ZTS_IOW_eq x y s hx hy]
    have e : 0x80000000 + s % 128 * 65536 + x * 256 + y
        = 2 ^ 29 * 4 + (s % 128 * 65536 + x * 256 + y) := by norm_num; omega
    rw [e, hdw]
    rfl
  have hv : ZTS_IO x y &&& 0xe0000000 = ZTS_IOC_VOID := by
    rw [ZTS_IO_eq x y hx hy]
    have e : 0x20000000 + x * 256 + y = 2 ^ 29 * 1 + (x * 256 + y) := by norm_num; omega
    rw [e, hdv]
    rfl
  refine ⟨⟨?_, ?_, ?_, hr⟩, ⟨?_, ?_, ?_, hw⟩, ⟨?_, ?_, ?_, hv⟩, ?_, ?_, ?_, ?_, ?_, ?_⟩
  all_goals
    simp only [hff, h7f, Nat.shiftRight_eq_div_pow, ZTS_IOR_eq x y s hx hy,
      ZTS_IOW_eq x y s hx hy, ZTS_IO_eq x y hx hy, ZTS_IOR_eq x2 y2 s2 hx2 hy2,
      ZTS_IOW_eq x2 y2 s2 hx2 hy2, ZTS_IO_eq x2 y2 hx2 hy2]
    norm_num
    omega

/-- Witness for C26 at the two requests of the header, `ZTS_IOR('f', 127, t)`
and `ZTS_IOW('f', 126, t)` with an 8-byte `t`. -/
theorem zts_ioc_decodable_witness :
    ZTS_IOR 'f'.toNat 127 8 &&& 0xff = 127
      ∧ ( ZTS_IOR 'f'.toNat 127 8 >>> 8) &&& 0xff = 'f'.toNat
      ∧ ZTS_IOR 'f'.toNat 127 8 ≠ ZTS_IOW 'f'.toNat 126 8 :=
  ⟨(zts_ioc_decodable 'f'.toNat 127 8 'f'.toNat 126 8 (by decide) (by decide) (by decide)
      (by decide)).1.1,
   (zts_ioc_decodable 'f'.toNat 127 8 'f'.toNat 126 8 (by decide) (by decide) (by decide)
      (by decide)).1.2.1,
   (zts_ioc_decodable 'f'.toNat 127 8 'f'.toNat 126 8 (by decide) (by decide) (by decide)
      (by decide)).2.2.2.2.2.2.1⟩

/-- C27: `ZTS_EWOULDBLOCK = ZTS_EAGAIN = 11` and
`ZTS_EDEADLOCK = ZTS_EDEADLK = 35`; apart from these two alias pairs, two
`ZTS_E*` constants with the same value are the same constant (the names of
the table being pairwise distinct). -/
theorem zts_errno_aliases :
    ZTS_EWOULDBLOCK = ZTS_EAGAIN ∧ ZTS_EAGAIN = 11
      ∧ ZTS_EDEADLOCK = ZTS_EDEADLK ∧ ZTS_EDEADLK = 35
      ∧ (∀ a ∈ zts_errno_codes, ∀ b ∈ zts_errno_codes, a.2 = b.2 →
          a.1 = b.1
            ∨ (a.1 = "ZTS_EWOULDBLOCK" ∧ b.1 = "ZTS_EAGAIN")
            ∨ (a.1 = "ZTS_EAGAIN" ∧ b.1 = "ZTS_EWOULDBLOCK")
            ∨ (a.1 = "ZTS_EDEADLOCK" ∧ b.1 = "ZTS_EDEADLK")
            ∨ (a.1 = "ZTS_EDEADLK" ∧ b.1 = "ZTS_EDEADLOCK"))
      ∧ (zts_errno_codes.map Prod.fst).Nodup := by
  refine ⟨rfl, rfl, rfl, rfl, ?_, ?_⟩
  · decide
  · decide

end ZeroTierSockets
